import Mathlib

/-!
# Envoke rights engine: share transfer and session login

A shallow embedding of `api/api.go`: the two share-transfer operations
(`TransferCompositionRight`, `TransferRecordingRight`), `Login` and `LoggedIn`, the two
license operations, and the handlers `TransferHandler` and `LicenseHandler`.

The operations talk to collaborators living in other packages (`bigchain`, `ld`,
`spec`, `crypto`).  These are carried by the structure `Env`; each function of it
receives the current ledger, so a collaborator may answer differently before and
after a submission.  A call returns an `Outcome`: the Go return value, the ledger it
leaves behind, and the collaborator calls it made, in order.

Go `int` values are integers; the one arithmetic operation of the file, the subtraction
`totalShares - recipientShares`, is reduced into the 64-bit range by `wrapInt`.
-/

/-! ## Keys, errors, records -/

/-- A decoded ed25519 private key (never nil). -/
structure PrivateKey where
  enc : String
  deriving DecidableEq, Repr

/-- A decoded ed25519 public key (never nil). -/
structure PublicKey where
  enc : String
  deriving DecidableEq, Repr

/-- Errors returned by the operations.  `criteriaNotMet d` is
`ErrorAppend(ErrCriteriaNotMet, d)`, `invalidKey` is `ErrInvalidKey`, and `other` is any
further error a collaborator may report. -/
inductive Err where
  | criteriaNotMet (detail : String)
  | invalidKey
  | other (msg : String)
  deriving DecidableEq, Repr

/-- The fields of a validated right-transfer record that the code reads, one per accessor:
`spec.GetRecipientId`, `spec.GetSenderId`, `spec.GetRecipientShares`,
`spec.GetSenderShares`, `spec.GetCompositionRightId` / `spec.GetRecordingRightId`
and `spec.GetTxId`. -/
structure TransferRecord where
  recipientId : String
  senderId : String
  recipientShares : Int
  senderShares : Int
  rightId : String
  txId : String
  deriving DecidableEq, Repr

/-- The field of a validated right record that the code reads
(`spec.GetRecipientShares`). -/
structure RightRecord where
  recipientShares : Int
  deriving DecidableEq, Repr

/-- The parts of a fetched ledger transaction that the code reads:
`bigchain.DefaultGetTxSender` and `spec.GetName (bigchain.GetTxData tx)`. -/
structure StoredTx where
  sender : PublicKey
  name : String
  deriving DecidableEq, Repr

/-- The records built by the operations modelled here, as the constructor calls
`spec.NewCompositionRightTransfer`, `spec.NewRecordingRightTransfer`,
`spec.NewMechanicalLicense` and `spec.NewMasterLicense` with their arguments in source
order. -/
inductive Record where
  | compositionRightTransfer
      (compositionRightId publicationId recipientId senderId txId : String)
  | recordingRightTransfer
      (recipientId recordingRightId releaseId senderId txId : String)
  | mechanicalLicense
      (compositionRightId compositionRightTransferId publicationId recipientId
        senderId : String)
      (territory usage : List String) (validFrom validThrough : String)
  | masterLicense
      (recipientId recordingRightId recordingRightTransferId releaseId senderId : String)
      (territory usage : List String) (validFrom validThrough : String)
  deriving DecidableEq, Repr

/-- The transactions built by the operations modelled here, as the constructor calls
`bigchain.IndividualTransferTx`, `bigchain.DivisibleTransferTx` and
`bigchain.DefaultIndividualCreateTx` with their arguments in source order.  Keys are
Go interface values: `none` is nil. -/
inductive Tx where
  | individualTransfer (amount : Int) (assetId consumeId : String) (output : Int)
      (ownerAfter ownerBefore : Option PublicKey)
  | divisibleTransfer (amounts : List Int) (assetId consumeId : String) (output : Int)
      (ownersAfter : List (Option PublicKey)) (ownerBefore : Option PublicKey)
  | defaultIndividualCreate (data : Record) (owner : Option PublicKey)
  deriving DecidableEq, Repr

/-- Whether a transaction is a transfer (as opposed to a creation). -/
def Tx.isTransfer : Tx → Bool
  | .individualTransfer .. => true
  | .divisibleTransfer .. => true
  | .defaultIndividualCreate .. => false

/-- Modelled from the spec: the outputs of a built transfer transaction, each an amount
with the key it goes to (the bodies of the `bigchain` constructors are not part of the
sources).  A single-output transfer carries its amount to the one new owner; a divisible
transfer has one output per share, in order.  A creation transaction transfers nothing
and has no entry here. -/
def Tx.outputs : Tx → List (Int × Option PublicKey)
  | .individualTransfer amount _ _ _ ownerAfter _ => [(amount, ownerAfter)]
  | .divisibleTransfer amounts _ _ _ ownersAfter _ => amounts.zip ownersAfter
  | .defaultIndividualCreate .. => []

/-- The allocation a transfer consumes: consumed transaction id and output index. -/
def Tx.consumed : Tx → Option (String × Int)
  | .individualTransfer _ _ consumeId output _ _ => some (consumeId, output)
  | .divisibleTransfer _ _ consumeId output _ _ => some (consumeId, output)
  | .defaultIndividualCreate .. => none

/-! ## Ledger and collaborators -/

/-- A transaction accepted by the ledger: the id it was given, the transaction, and the
private key it was fulfilled with. -/
structure Posted where
  id : String
  tx : Tx
  signer : Option PrivateKey
  deriving DecidableEq, Repr

/-- The ledger: the transactions accepted so far, oldest first. -/
abbrev Ledger := List Posted

/-- The collaborators of `api.go`, with their arguments in source order.  Every one may
fail, and every one sees the ledger.  `PostTx` receives the transaction together with
the private key it was fulfilled with (`bigchain.FulfillTx` signs in place) and answers
with the id given to the transaction or with an error; an accepted transaction is
appended to the ledger by the operation that submitted it.  `FromString` and `Public`
are the methods of `ed25519.PrivateKey`. -/
structure Env where
  ValidateCompositionRightTransfer : Ledger → String → Except Err TransferRecord
  ValidateRecordingRightTransfer : Ledger → String → Except Err TransferRecord
  ValidateCompositionRightHolder : Ledger → String → String → String → Except Err RightRecord
  ValidateRecordingRightHolder : Ledger → String → String → String → Except Err RightRecord
  GetTx : Ledger → String → Except Err StoredTx
  QueryAndValidateModel : Ledger → String → Except Err StoredTx
  PostTx : Ledger → Tx → Option PrivateKey → Except Err String
  FromString : String → Except Err PrivateKey
  Public : PrivateKey → PublicKey

/-- The collaborator calls an operation makes. -/
inductive Call where
  | validateRightTransfer (id : String)
  | validateRightHolder (a b c : String)
  | getTx (id : String)
  | buildTx (tx : Tx)
  | fulfillTx (tx : Tx) (priv : Option PrivateKey)
  | postTx (tx : Tx)
  deriving DecidableEq, Repr

/-- The Go `Data` value returned by a successful transfer: the receipt and its id. -/
structure TransferData where
  id : String
  transfer : Record
  deriving DecidableEq, Repr

/-- What a transfer operation did: its return value, the ledger afterwards, and the
collaborator calls in order. -/
structure Outcome where
  result : Except Err TransferData
  ledger : Ledger
  calls : List Call

/-- The transfer transaction a call builds, if it builds one. -/
def Call.builtTransfer : Call → Option Tx
  | .buildTx tx => if tx.isTransfer then some tx else none
  | _ => none

/-- The transaction a call submits with `bigchain.PostTx`, if it is a submission. -/
def Call.posted : Call → Option Tx
  | .postTx tx => some tx
  | _ => none

/-- The id a call looks up with `bigchain.GetTx`, if it is a lookup. -/
def Call.lookedUp : Call → Option String
  | .getTx id => some id
  | _ => none

/-- The transfer transactions built during a run. -/
def Outcome.transfers (o : Outcome) : List Tx := o.calls.filterMap Call.builtTransfer

/-- The transactions submitted with `bigchain.PostTx` during a run. -/
def Outcome.posts (o : Outcome) : List Tx := o.calls.filterMap Call.posted

/-- The ids looked up with `bigchain.GetTx` during a run. -/
def Outcome.lookups (o : Outcome) : List String := o.calls.filterMap Call.lookedUp

/-! ## Machine integers -/

/-- Largest Go `int` (64-bit). -/
def intMax : Int := 9223372036854775807

/-- Smallest Go `int` (64-bit). -/
def intMin : Int := -9223372036854775808

/-- Reduction of an integer into the two-complement 64-bit range. -/
def wrapInt (x : Int) : Int :=
  (x + 9223372036854775808) % 18446744073709551616 - 9223372036854775808

/-- Go `a - b` on `int`. -/
def subInt (a b : Int) : Int := wrapInt (a - b)

/-- `EmptyStr` of the `common` package. -/
def EmptyStr (s : String) : Bool := decide (s = "")

/-! ## Session -/

/-- The session fields of `Api` (the logger is not modelled). -/
structure Api where
  partyId : String
  priv : Option PrivateKey
  pub : Option PublicKey
  deriving DecidableEq, Repr

/-- `NewApi`: no party id, no keys. -/
def NewApi : Api := ⟨"", none, none⟩

/-- `Api.LoggedIn`: all three session fields are set. -/
def Api.LoggedIn (api : Api) : Bool :=
  if api.partyId = "" then false
  else if api.priv = none then false
  else if api.pub = none then false
  else true

/-- `Api.Login`: returns the Go error (`none` is nil) and the session afterwards. -/
def Api.Login (env : Env) (L : Ledger) (api : Api) (partyId privstr : String) :
    Option Err × Api :=
  match env.FromString privstr with
  | .error err => (some err, api)
  | .ok priv =>
    match env.QueryAndValidateModel L partyId with
    | .error err => (some err, api)
    | .ok tx =>
      let pub := tx.sender
      if ¬ (pub = env.Public priv) then (some Err.invalidKey, api)
      else (none, { partyId := partyId, priv := some priv, pub := some pub })

/-! ## Share transfer -/

/-- The variables set by the resolution step of a transfer (lines 550-574 and 609-633):
the right id, the consumed transaction id `txId`, the output index `output` and
`totalShares`. -/
structure Resolved where
  rightId : String
  txId : String
  output : Int
  totalShares : Int
  deriving DecidableEq, Repr

/-- Resolution step of `TransferCompositionRight` (lines 550-574): the resolved variables
or the error returned, and the collaborator calls made. -/
def resolveCompositionRight (env : Env) (api : Api) (L : Ledger)
    (compositionRightId compositionRightTransferId publicationId : String) :
    Except Err Resolved × List Call :=
  if !EmptyStr compositionRightTransferId then
    match env.ValidateCompositionRightTransfer L compositionRightTransferId with
    | .error err => (.error err, [Call.validateRightTransfer compositionRightTransferId])
    | .ok compositionRightTransfer =>
      if api.partyId = compositionRightTransfer.recipientId then
        (.ok ⟨compositionRightTransfer.rightId, compositionRightTransfer.txId, 0,
            compositionRightTransfer.recipientShares⟩,
          [Call.validateRightTransfer compositionRightTransferId])
      else if api.partyId = compositionRightTransfer.senderId then
        (.ok ⟨compositionRightTransfer.rightId, compositionRightTransfer.txId, 1,
            compositionRightTransfer.senderShares⟩,
          [Call.validateRightTransfer compositionRightTransferId])
      else
        (.error (Err.criteriaNotMet
            "partyId does not match recipientId or senderId of TRANSFER tx"),
          [Call.validateRightTransfer compositionRightTransferId])
  else
    match env.ValidateCompositionRightHolder L compositionRightId publicationId api.partyId with
    | .error err =>
      (.error err, [Call.validateRightHolder compositionRightId publicationId api.partyId])
    | .ok compositionRight =>
      (.ok ⟨compositionRightId, compositionRightId, 0, compositionRight.recipientShares⟩,
        [Call.validateRightHolder compositionRightId publicationId api.partyId])

/-- `Api.TransferCompositionRight` (lines 549-606). -/
def Api.TransferCompositionRight (env : Env) (api : Api) (L : Ledger)
    (compositionRightId compositionRightTransferId publicationId recipientId : String)
    (recipientShares : Int) : Outcome :=
  match resolveCompositionRight env api L compositionRightId compositionRightTransferId
      publicationId with
  | (.error err, calls) => ⟨.error err, L, calls⟩
  | (.ok r, calls) =>
    match env.GetTx L recipientId with
    | .error err => ⟨.error err, L, calls ++ [Call.getTx recipientId]⟩
    | .ok tx =>
      let recipientPub := tx.sender
      let senderShares := subInt r.totalShares recipientShares
      if senderShares < 0 then
        ⟨.error (Err.criteriaNotMet "cannot transfer this many shares"), L,
          calls ++ [Call.getTx recipientId]⟩
      else
        let tx :=
          if senderShares = 0 then
            Tx.individualTransfer recipientShares r.rightId r.txId r.output
              (some recipientPub) api.pub
          else
            Tx.divisibleTransfer [recipientShares, senderShares] r.rightId r.txId r.output
              [some recipientPub, api.pub] api.pub
        let calls := calls ++
          [Call.getTx recipientId, Call.buildTx tx, Call.fulfillTx tx api.priv, Call.postTx tx]
        match env.PostTx L tx api.priv with
        | .error err => ⟨.error err, L, calls⟩
        | .ok txId =>
          let L := L ++ [⟨txId, tx, api.priv⟩]
          let compositionRightTransfer :=
            Record.compositionRightTransfer r.rightId publicationId recipientId api.partyId txId
          let tx := Tx.defaultIndividualCreate compositionRightTransfer api.pub
          let calls := calls ++
            [Call.buildTx tx, Call.fulfillTx tx api.priv, Call.postTx tx]
          match env.PostTx L tx api.priv with
          | .error err => ⟨.error err, L, calls⟩
          | .ok id => ⟨.ok ⟨id, compositionRightTransfer⟩, L ++ [⟨id, tx, api.priv⟩], calls⟩

/-- Resolution step of `TransferRecordingRight` (lines 609-633). -/
def resolveRecordingRight (env : Env) (api : Api) (L : Ledger)
    (recordingRightId recordingRightTransferId releaseId : String) :
    Except Err Resolved × List Call :=
  if !EmptyStr recordingRightTransferId then
    match env.ValidateRecordingRightTransfer L recordingRightTransferId with
    | .error err => (.error err, [Call.validateRightTransfer recordingRightTransferId])
    | .ok recordingRightTransfer =>
      if api.partyId = recordingRightTransfer.recipientId then
        (.ok ⟨recordingRightTransfer.rightId, recordingRightTransfer.txId, 0,
            recordingRightTransfer.recipientShares⟩,
          [Call.validateRightTransfer recordingRightTransferId])
      else if api.partyId = recordingRightTransfer.senderId then
        (.ok ⟨recordingRightTransfer.rightId, recordingRightTransfer.txId, 1,
            recordingRightTransfer.senderShares⟩,
          [Call.validateRightTransfer recordingRightTransferId])
      else
        (.error (Err.criteriaNotMet
            "partyId does not match recipientId or senderId of TRANSFER tx"),
          [Call.validateRightTransfer recordingRightTransferId])
  else
    match env.ValidateRecordingRightHolder L api.partyId recordingRightId releaseId with
    | .error err =>
      (.error err, [Call.validateRightHolder api.partyId recordingRightId releaseId])
    | .ok recordingRight =>
      (.ok ⟨recordingRightId, recordingRightId, 0, recordingRight.recipientShares⟩,
        [Call.validateRightHolder api.partyId recordingRightId releaseId])

/-- `Api.TransferRecordingRight` (lines 608-665). -/
def Api.TransferRecordingRight (env : Env) (api : Api) (L : Ledger)
    (recordingRightId recordingRightTransferId recipientId : String)
    (recipientShares : Int) (releaseId : String) : Outcome :=
  match resolveRecordingRight env api L recordingRightId recordingRightTransferId
      releaseId with
  | (.error err, calls) => ⟨.error err, L, calls⟩
  | (.ok r, calls) =>
    match env.GetTx L recipientId with
    | .error err => ⟨.error err, L, calls ++ [Call.getTx recipientId]⟩
    | .ok tx =>
      let recipientPub := tx.sender
      let senderShares := subInt r.totalShares recipientShares
      if senderShares < 0 then
        ⟨.error (Err.criteriaNotMet "cannot transfer this many shares"), L,
          calls ++ [Call.getTx recipientId]⟩
      else
        let tx :=
          if senderShares = 0 then
            Tx.individualTransfer recipientShares r.rightId r.txId r.output
              (some recipientPub) api.pub
          else
            Tx.divisibleTransfer [recipientShares, senderShares] r.rightId r.txId r.output
              [some recipientPub, api.pub] api.pub
        let calls := calls ++
          [Call.getTx recipientId, Call.buildTx tx, Call.fulfillTx tx api.priv, Call.postTx tx]
        match env.PostTx L tx api.priv with
        | .error err => ⟨.error err, L, calls⟩
        | .ok txId =>
          let L := L ++ [⟨txId, tx, api.priv⟩]
          let recordingRightTransfer :=
            Record.recordingRightTransfer recipientId r.rightId releaseId api.partyId txId
          let tx := Tx.defaultIndividualCreate recordingRightTransfer api.pub
          let calls := calls ++
            [Call.buildTx tx, Call.fulfillTx tx api.priv, Call.postTx tx]
          match env.PostTx L tx api.priv with
          | .error err => ⟨.error err, L, calls⟩
          | .ok id => ⟨.ok ⟨id, recordingRightTransfer⟩, L ++ [⟨id, tx, api.priv⟩], calls⟩

/-- The transfer transaction the split step selects for resolved variables `r`, a request
of `recipientShares` and a recipient key: single-output when nothing is left for the
sender, two-output otherwise (lines 584-588 and 643-647). -/
def splitTx (api : Api) (r : Resolved) (recipientShares : Int) (recipientPub : PublicKey) :
    Tx :=
  if subInt r.totalShares recipientShares = 0 then
    Tx.individualTransfer recipientShares r.rightId r.txId r.output (some recipientPub) api.pub
  else
    Tx.divisibleTransfer [recipientShares, subInt r.totalShares recipientShares] r.rightId
      r.txId r.output [some recipientPub, api.pub] api.pub

/-! ## License issuance -/

/-- The Go `Data` value returned by a successful license operation: the license and its
id. -/
structure LicenseData where
  id : String
  license : Record
  deriving DecidableEq, Repr

/-- What a license operation did: its return value, the ledger afterwards, and the
collaborator calls in order. -/
structure LicenseOutcome where
  result : Except Err LicenseData
  ledger : Ledger
  calls : List Call

/-- `Api.MechanicalLicense` (lines 519-532). -/
def Api.MechanicalLicense (env : Env) (api : Api) (L : Ledger)
    (compositionRightId compositionRightTransferId publicationId recipientId : String)
    (territory usage : List String) (validFrom validThrough : String) : LicenseOutcome :=
  let mechanicalLicense :=
    Record.mechanicalLicense compositionRightId compositionRightTransferId publicationId
      recipientId api.partyId territory usage validFrom validThrough
  let tx := Tx.defaultIndividualCreate mechanicalLicense api.pub
  let calls := [Call.buildTx tx, Call.fulfillTx tx api.priv, Call.postTx tx]
  match env.PostTx L tx api.priv with
  | .error err => ⟨.error err, L, calls⟩
  | .ok id => ⟨.ok ⟨id, mechanicalLicense⟩, L ++ [⟨id, tx, api.priv⟩], calls⟩

/-- `Api.MasterLicense` (lines 534-547). -/
def Api.MasterLicense (env : Env) (api : Api) (L : Ledger)
    (recipientId recordingRightId recordingRightTransferId releaseId : String)
    (territory usage : List String) (validFrom validThrough : String) : LicenseOutcome :=
  let masterLicense :=
    Record.masterLicense recipientId recordingRightId recordingRightTransferId releaseId
      api.partyId territory usage validFrom validThrough
  let tx := Tx.defaultIndividualCreate masterLicense api.pub
  let calls := [Call.buildTx tx, Call.fulfillTx tx api.priv, Call.postTx tx]
  match env.PostTx L tx api.priv with
  | .error err => ⟨.error err, L, calls⟩
  | .ok id => ⟨.ok ⟨id, masterLicense⟩, L ++ [⟨id, tx, api.priv⟩], calls⟩

/-! ## HTTP handlers -/

/-- Helpers of the `common` package whose bodies are not part of the sources, taken as
given: `MustAtoi` (which answers `none` where it does not return) and `SplitStr`. -/
structure Common where
  MustAtoi : String → Option Int
  SplitStr : String → String → List String

/-- A request as the handlers read it: `req.Method`, and the outcome of `UrlValues(req)`,
either an error or the function `values.Get`. -/
structure Request where
  method : String
  values : Except Err (String → String)

/-- The text handed to `http.Error`: a string literal of the source,
`ErrExpectedPost.Error()`, or `err.Error()` of a returned error. -/
inductive Message where
  | literal (text : String)
  | errExpectedPost
  | ofError (err : Err)
  deriving DecidableEq, Repr

/-- The value handed to `WriteJSON`: the nil `Data`, or the `Data` returned by an
operation. -/
inductive Body where
  | nil
  | transfer (d : TransferData)
  | license (d : LicenseData)
  deriving DecidableEq, Repr

/-- One write to the `http.ResponseWriter`: `http.Error(w, msg, status)` or
`WriteJSON(w, body)`. -/
inductive Write where
  | httpError (msg : Message) (status : Nat)
  | writeJSON (body : Body)
  deriving DecidableEq, Repr

/-- The operations a handler can invoke. -/
inductive Operation where
  | transferCompositionRight
  | transferRecordingRight
  | mechanicalLicense
  | masterLicense
  deriving DecidableEq, Repr

/-- What a handler did: its writes to the response in order, the operations it invoked,
the ledger afterwards and the collaborator calls made. -/
structure Response where
  writes : List Write
  invoked : List Operation
  ledger : Ledger
  calls : List Call
  deriving DecidableEq, Repr

/-- The handler variables after the `switch` (or `if` chain) that selects the operation:
the writes so far, the `Data` variable, the `err` variable, and whether the handler has
returned inside the selection. -/
structure Selected where
  response : Response
  data : Body
  err : Option Err
  returned : Bool

/-- The common tail of the handlers after the selection: nothing more if the handler has
returned, else the error of the operation if there is one, else the `Data` as JSON. -/
def Selected.finish (s : Selected) : Response :=
  if s.returned then s.response
  else
    match s.err with
    | some err =>
      { s.response with
        writes := s.response.writes ++ [Write.httpError (Message.ofError err) 400] }
    | none => { s.response with writes := s.response.writes ++ [Write.writeJSON s.data] }

/-- `Api.TransferHandler` (lines 319-353); `none` when `MustAtoi` does not return. -/
def Api.TransferHandler (c : Common) (env : Env) (api : Api) (L : Ledger) (req : Request) :
    Option Response :=
  if !api.LoggedIn then
    some ⟨[Write.httpError (Message.literal "Not logged in") 401], [], L, []⟩
  else if req.method ≠ "POST" then
    some ⟨[Write.httpError Message.errExpectedPost 400], [], L, []⟩
  else
    match req.values with
    | .error err => some ⟨[Write.httpError (Message.ofError err) 400], [], L, []⟩
    | .ok values =>
      let publicationId := values "publicationId"
      let recipientId := values "recipientId"
      match c.MustAtoi (values "recipientShares") with
      | none => none
      | some recipientShares =>
        let releaseId := values "releaseId"
        let rightId := values "rightId"
        let rightTransferId := values "rightTransferId"
        let selected : Selected :=
          if !EmptyStr publicationId then
            let o := api.TransferCompositionRight env L rightId rightTransferId publicationId
              recipientId recipientShares
            match o.result with
            | .error err =>
              ⟨⟨[], [Operation.transferCompositionRight], o.ledger, o.calls⟩, Body.nil,
                some err, false⟩
            | .ok transfer =>
              ⟨⟨[], [Operation.transferCompositionRight], o.ledger, o.calls⟩,
                Body.transfer transfer, none, false⟩
          else if !EmptyStr releaseId then
            let o := api.TransferRecordingRight env L rightId rightTransferId recipientId
              recipientShares releaseId
            match o.result with
            | .error err =>
              ⟨⟨[], [Operation.transferRecordingRight], o.ledger, o.calls⟩, Body.nil,
                some err, false⟩
            | .ok transfer =>
              ⟨⟨[], [Operation.transferRecordingRight], o.ledger, o.calls⟩,
                Body.transfer transfer, none, false⟩
          else
            ⟨⟨[Write.httpError (Message.literal "Expected publicationId or releaseId") 400],
                [], L, []⟩, Body.nil, none, false⟩
        some selected.finish

/-- `Api.LicenseHandler` (lines 246-283). -/
def Api.LicenseHandler (c : Common) (env : Env) (api : Api) (L : Ledger) (req : Request) :
    Response :=
  if !api.LoggedIn then
    ⟨[Write.httpError (Message.literal "Not logged in") 401], [], L, []⟩
  else if req.method ≠ "POST" then
    ⟨[Write.httpError Message.errExpectedPost 400], [], L, []⟩
  else
    match req.values with
    | .error err => ⟨[Write.httpError (Message.ofError err) 400], [], L, []⟩
    | .ok values =>
      let publicationId := values "publicationId"
      let recipientId := values "recipientId"
      let releaseId := values "releaseId"
      let rightId := values "rightId"
      let territory := c.SplitStr (values "territory") ","
      let transferId := values "transferId"
      let usage := c.SplitStr (values "usage") ","
      let validFrom := values "validFrom"
      let validThrough := values "validThrough"
      let selected : Selected :=
        if !EmptyStr publicationId then
          let o := api.MechanicalLicense env L rightId transferId publicationId recipientId
            territory usage validFrom validThrough
          match o.result with
          | .error err =>
            ⟨⟨[], [Operation.mechanicalLicense], o.ledger, o.calls⟩, Body.nil, some err,
              false⟩
          | .ok license =>
            ⟨⟨[], [Operation.mechanicalLicense], o.ledger, o.calls⟩, Body.license license,
              none, false⟩
        else if !EmptyStr releaseId then
          let o := api.MasterLicense env L recipientId rightId transferId releaseId
            territory usage validFrom validThrough
          match o.result with
          | .error err =>
            ⟨⟨[], [Operation.masterLicense], o.ledger, o.calls⟩, Body.nil, some err, false⟩
          | .ok license =>
            ⟨⟨[], [Operation.masterLicense], o.ledger, o.calls⟩, Body.license license,
              none, false⟩
        else
          ⟨⟨[Write.httpError (Message.literal "Expected publicationId or releaseId") 400],
              [], L, []⟩, Body.nil, none, true⟩
      selected.finish

/-! ## Correspondence between the two transfer operations -/

/-- The fields of a transfer receipt, whichever of the two constructors built it. -/
structure ReceiptFields where
  rightId : String
  containerId : String
  recipientId : String
  senderId : String
  txId : String
  deriving DecidableEq, Repr

/-- The fields a transfer receipt was built from (`none` for a record that is not a
transfer receipt). -/
def Record.receiptFields : Record → Option ReceiptFields
  | .compositionRightTransfer compositionRightId publicationId recipientId senderId txId =>
    some ⟨compositionRightId, publicationId, recipientId, senderId, txId⟩
  | .recordingRightTransfer recipientId recordingRightId releaseId senderId txId =>
    some ⟨recordingRightId, releaseId, recipientId, senderId, txId⟩
  | _ => none

/-- The recording-right receipt built from the same fields as a composition-right
receipt; other records are left as they are. -/
def Record.toRecording : Record → Record
  | .compositionRightTransfer compositionRightId publicationId recipientId senderId txId =>
    .recordingRightTransfer recipientId compositionRightId publicationId senderId txId
  | r => r

/-- A transaction with its record, if any, taken to the recording-right side. -/
def Tx.toRecording : Tx → Tx
  | .defaultIndividualCreate data owner => .defaultIndividualCreate data.toRecording owner
  | tx => tx

/-- The call of the recording-right operation that corresponds to a call of the
composition-right operation: the holder validation receives the same three ids in the
order (party, right, container) instead of (right, container, party), and a built,
fulfilled or submitted transaction carries the recording-right receipt. -/
def Call.toRecording : Call → Call
  | .validateRightHolder a b c => .validateRightHolder c a b
  | .buildTx tx => .buildTx tx.toRecording
  | .fulfillTx tx priv => .fulfillTx tx.toRecording priv
  | .postTx tx => .postTx tx.toRecording
  | c => c

/-- An accepted transaction taken to the recording-right side. -/
def Posted.toRecording (p : Posted) : Posted := ⟨p.id, p.tx.toRecording, p.signer⟩

/-- A returned value taken to the recording-right side. -/
def TransferData.toRecording (d : TransferData) : TransferData :=
  ⟨d.id, d.transfer.toRecording⟩

/-! ## Concrete collaborators used to exercise the definitions -/

/-- A prior transfer in which alice sent 40 shares to bob and kept 60. -/
def demoTransfer : TransferRecord :=
  ⟨"bob", "alice", 40, 60, "right-1", "tx-1"⟩

/-- A prior transfer in which alice sent all 100 shares to bob and kept none. -/
def fullTransfer : TransferRecord :=
  ⟨"bob", "alice", 100, 0, "right-1", "tx-1"⟩

/-- A ledger that accepts every submission, knows one prior transfer `transfer-1`, and
records every right with 100 shares. -/
def demoEnv : Env where
  ValidateCompositionRightTransfer := fun _ id =>
    if id = "transfer-1" then .ok demoTransfer else .error (Err.other "no such transfer")
  ValidateRecordingRightTransfer := fun _ id =>
    if id = "transfer-1" then .ok demoTransfer else .error (Err.other "no such transfer")
  ValidateCompositionRightHolder := fun _ _ _ _ => .ok ⟨100⟩
  ValidateRecordingRightHolder := fun _ _ _ _ => .ok ⟨100⟩
  GetTx := fun _ id => .ok ⟨⟨id⟩, id⟩
  QueryAndValidateModel := fun _ id => .ok ⟨⟨id⟩, id⟩
  PostTx := fun L _ _ =>
    match L with
    | [] => .ok "new-1"
    | _ => .ok "new-2"
  FromString := fun s => if s = "" then .error (Err.other "bad key") else .ok ⟨s⟩
  Public := fun k => ⟨k.enc⟩

/-- As `demoEnv`, but the ledger rejects every creation transaction (so every receipt). -/
def rejectReceiptEnv : Env :=
  { demoEnv with
    PostTx := fun _ tx _ =>
      if tx.isTransfer then .ok "new-1" else .error (Err.other "rejected") }

/-- As `demoEnv`, but the prior transfer `transfer-1` was a full transfer. -/
def fullTransferEnv : Env :=
  { demoEnv with
    ValidateCompositionRightTransfer := fun _ _ => .ok fullTransfer
    ValidateRecordingRightTransfer := fun _ _ => .ok fullTransfer }

/-- As `demoEnv`, but no right holder validates. -/
def noHolderEnv : Env :=
  { demoEnv with
    ValidateCompositionRightHolder := fun _ _ _ _ => .error (Err.other "not a holder")
    ValidateRecordingRightHolder := fun _ _ _ _ => .error (Err.other "not a holder") }

/-- Stand-ins for `MustAtoi` and `SplitStr` that cover the values used below: the number
10, and strings without a separator. -/
def demoCommon : Common where
  MustAtoi := fun s => if s = "10" then some 10 else none
  SplitStr := fun s _ => if s = "" then [] else [s]

/-- A POST request that asks to transfer 10 shares to bob and names neither a publication
nor a release. -/
def noContainerRequest : Request where
  method := "POST"
  values := .ok fun key =>
    if key = "recipientShares" then "10"
    else if key = "recipientId" then "bob"
    else if key = "rightId" then "right-1"
    else ""

/-- A logged-in session of alice. -/
def alice : Api := ⟨"alice", some ⟨"alice"⟩, some ⟨"alice"⟩⟩

/-- A logged-in session of bob. -/
def bob : Api := ⟨"bob", some ⟨"bob"⟩, some ⟨"bob"⟩⟩

/-- A logged-in session of carol, who took part in no transfer. -/
def carol : Api := ⟨"carol", some ⟨"carol"⟩, some ⟨"carol"⟩⟩

/-! ## Auxiliary facts -/

/-- Inside the 64-bit range `wrapInt` changes nothing. -/
theorem wrapInt_of_inRange (x : Int) (h1 : intMin ≤ x) (h2 : x ≤ intMax) : wrapInt x = x := by
  unfold intMin at h1
  unfold intMax at h2
  unfold wrapInt
  omega

/-- The resolution step of a composition-right transfer makes exactly one call, a
validation. -/
theorem resolveCompositionRight_calls (env : Env) (api : Api) (L : Ledger)
    (rid tid pid : String) :
    (resolveCompositionRight env api L rid tid pid).2 = [Call.validateRightTransfer tid] ∨
    (resolveCompositionRight env api L rid tid pid).2 =
      [Call.validateRightHolder rid pid api.partyId] := by
  unfold resolveCompositionRight
  split
  · left
    split
    · rfl
    · split_ifs <;> rfl
  · right
    split <;> rfl

/-- The resolution step of a recording-right transfer makes exactly one call, a
validation. -/
theorem resolveRecordingRight_calls (env : Env) (api : Api) (L : Ledger)
    (rid tid lid : String) :
    (resolveRecordingRight env api L rid tid lid).2 = [Call.validateRightTransfer tid] ∨
    (resolveRecordingRight env api L rid tid lid).2 =
      [Call.validateRightHolder api.partyId rid lid] := by
  unfold resolveRecordingRight
  split
  · left
    split
    · rfl
    · split_ifs <;> rfl
  · right
    split <;> rfl

/-- A validation call builds nothing, submits nothing and looks up no party. -/
theorem validation_calls_quiet (cs : List Call) (tid a b c : String)
    (h : cs = [Call.validateRightTransfer tid] ∨ cs = [Call.validateRightHolder a b c]) :
    cs.filterMap Call.builtTransfer = [] ∧ cs.filterMap Call.posted = [] ∧
      cs.filterMap Call.lookedUp = [] := by
  rcases h with h | h <;> subst h <;> simp [Call.builtTransfer, Call.posted, Call.lookedUp]

/-- The calls of a successful or failed composition-right resolution are quiet. -/
theorem resolveCompositionRight_quiet (env : Env) (api : Api) (L : Ledger)
    (rid tid pid : String) (x : Except Err Resolved) (cs : List Call)
    (h : resolveCompositionRight env api L rid tid pid = (x, cs)) :
    cs.filterMap Call.builtTransfer = [] ∧ cs.filterMap Call.posted = [] ∧
      cs.filterMap Call.lookedUp = [] := by
  have h2 := resolveCompositionRight_calls env api L rid tid pid
  rw [h] at h2
  exact validation_calls_quiet cs tid rid pid api.partyId h2

/-- The calls of a successful or failed recording-right resolution are quiet. -/
theorem resolveRecordingRight_quiet (env : Env) (api : Api) (L : Ledger)
    (rid tid lid : String) (x : Except Err Resolved) (cs : List Call)
    (h : resolveRecordingRight env api L rid tid lid = (x, cs)) :
    cs.filterMap Call.builtTransfer = [] ∧ cs.filterMap Call.posted = [] ∧
      cs.filterMap Call.lookedUp = [] := by
  have h2 := resolveRecordingRight_calls env api L rid tid lid
  rw [h] at h2
  exact validation_calls_quiet cs tid api.partyId rid lid h2

/-- The transaction selected by the split step is a transfer. -/
theorem splitTx_isTransfer (api : Api) (r : Resolved) (R : Int) (k : PublicKey) :
    (splitTx api r R k).isTransfer = true := by
  unfold splitTx
  split <;> rfl

/-- The transfer transactions built by `TransferCompositionRight` once resolution and the
recipient lookup have succeeded: none if the request exceeds the holding, else the one
selected by the split step. -/
theorem compositionTransfers_of_resolved (env : Env) (api : Api) (L : Ledger)
    (rid tid pid recipientId : String) (R : Int) (r : Resolved) (cs : List Call)
    (rtx : StoredTx)
    (hres : resolveCompositionRight env api L rid tid pid = (.ok r, cs))
    (hget : env.GetTx L recipientId = .ok rtx) :
    (api.TransferCompositionRight env L rid tid pid recipientId R).transfers =
      if subInt r.totalShares R < 0 then [] else [splitTx api r R rtx.sender] := by
  obtain ⟨q1, -, -⟩ := resolveCompositionRight_quiet env api L rid tid pid _ cs hres
  unfold Api.TransferCompositionRight Outcome.transfers
  simp only [hres, hget]
  by_cases hneg : subInt r.totalShares R < 0
  · simp [hneg, q1, Call.builtTransfer]
  · simp only [hneg, if_false]
    by_cases hz : subInt r.totalShares R = 0
    · simp only [splitTx, hz, if_true]
      split
      · simp [q1, Call.builtTransfer, Tx.isTransfer]
      · split <;> simp [q1, Call.builtTransfer, Tx.isTransfer]
    · simp only [splitTx, hz, if_false]
      split
      · simp [q1, Call.builtTransfer, Tx.isTransfer]
      · split <;> simp [q1, Call.builtTransfer, Tx.isTransfer]

/-- A failed resolution ends the composition-right transfer with that error. -/
theorem composition_resolve_error (env : Env) (api : Api) (L : Ledger)
    (rid tid pid recipientId : String) (R : Int) (e : Err) (cs : List Call)
    (hres : resolveCompositionRight env api L rid tid pid = (.error e, cs)) :
    api.TransferCompositionRight env L rid tid pid recipientId R = ⟨.error e, L, cs⟩ := by
  unfold Api.TransferCompositionRight
  simp only [hres]

/-- A failed recipient lookup ends the composition-right transfer with that error. -/
theorem composition_lookup_error (env : Env) (api : Api) (L : Ledger)
    (rid tid pid recipientId : String) (R : Int) (r : Resolved) (e : Err) (cs : List Call)
    (hres : resolveCompositionRight env api L rid tid pid = (.ok r, cs))
    (hget : env.GetTx L recipientId = .error e) :
    api.TransferCompositionRight env L rid tid pid recipientId R =
      ⟨.error e, L, cs ++ [Call.getTx recipientId]⟩ := by
  unfold Api.TransferCompositionRight
  simp only [hres, hget]

/-- A negative remainder ends the composition-right transfer with CriteriaNotMet. -/
theorem composition_over (env : Env) (api : Api) (L : Ledger)
    (rid tid pid recipientId : String) (R : Int) (r : Resolved) (cs : List Call)
    (rtx : StoredTx)
    (hres : resolveCompositionRight env api L rid tid pid = (.ok r, cs))
    (hget : env.GetTx L recipientId = .ok rtx)
    (hneg : subInt r.totalShares R < 0) :
    api.TransferCompositionRight env L rid tid pid recipientId R =
      ⟨.error (Err.criteriaNotMet "cannot transfer this many shares"), L,
        cs ++ [Call.getTx recipientId]⟩ := by
  unfold Api.TransferCompositionRight
  simp only [hres, hget, hneg, if_true]

/-- A rejected transfer transaction ends the composition-right transfer; the ledger is unchanged. -/
theorem composition_post_error (env : Env) (api : Api) (L : Ledger)
    (rid tid pid recipientId : String) (R : Int) (r : Resolved) (cs : List Call)
    (rtx : StoredTx) (e : Err)
    (hres : resolveCompositionRight env api L rid tid pid = (.ok r, cs))
    (hget : env.GetTx L recipientId = .ok rtx)
    (hneg : ¬ subInt r.totalShares R < 0)
    (hpost : env.PostTx L (splitTx api r R rtx.sender) api.priv = .error e) :
    api.TransferCompositionRight env L rid tid pid recipientId R =
      ⟨.error e, L, cs ++ [Call.getTx recipientId, Call.buildTx (splitTx api r R rtx.sender),
        Call.fulfillTx (splitTx api r R rtx.sender) api.priv,
        Call.postTx (splitTx api r R rtx.sender)]⟩ := by
  unfold Api.TransferCompositionRight
  unfold splitTx at hpost ⊢
  simp only [hres, hget, hneg, if_false, hpost]

/-- A rejected receipt ends the composition-right transfer; the accepted transfer stays on the ledger. -/
theorem composition_receipt_error (env : Env) (api : Api) (L : Ledger)
    (rid tid pid recipientId : String) (R : Int) (r : Resolved) (cs : List Call)
    (rtx : StoredTx) (txId : String) (e : Err)
    (hres : resolveCompositionRight env api L rid tid pid = (.ok r, cs))
    (hget : env.GetTx L recipientId = .ok rtx)
    (hneg : ¬ subInt r.totalShares R < 0)
    (hpost : env.PostTx L (splitTx api r R rtx.sender) api.priv = .ok txId)
    (hpost2 : env.PostTx (L ++ [⟨txId, splitTx api r R rtx.sender, api.priv⟩])
      (Tx.defaultIndividualCreate
        (Record.compositionRightTransfer r.rightId pid recipientId api.partyId txId) api.pub)
      api.priv = .error e) :
    api.TransferCompositionRight env L rid tid pid recipientId R =
      ⟨.error e, L ++ [⟨txId, splitTx api r R rtx.sender, api.priv⟩],
        cs ++ [Call.getTx recipientId, Call.buildTx (splitTx api r R rtx.sender),
          Call.fulfillTx (splitTx api r R rtx.sender) api.priv,
          Call.postTx (splitTx api r R rtx.sender)] ++
        [Call.buildTx (Tx.defaultIndividualCreate
            (Record.compositionRightTransfer r.rightId pid recipientId api.partyId txId) api.pub),
          Call.fulfillTx (Tx.defaultIndividualCreate
            (Record.compositionRightTransfer r.rightId pid recipientId api.partyId txId) api.pub)
            api.priv,
          Call.postTx (Tx.defaultIndividualCreate
            (Record.compositionRightTransfer r.rightId pid recipientId api.partyId txId)
            api.pub)]⟩ := by
  unfold Api.TransferCompositionRight
  unfold splitTx at hpost hpost2 ⊢
  simp only [hres, hget, hneg, if_false, hpost, hpost2]

/-- The composition-right transfer succeeds when both submissions are accepted. -/
theorem composition_success (env : Env) (api : Api) (L : Ledger)
    (rid tid pid recipientId : String) (R : Int) (r : Resolved) (cs : List Call)
    (rtx : StoredTx) (txId id : String)
    (hres : resolveCompositionRight env api L rid tid pid = (.ok r, cs))
    (hget : env.GetTx L recipientId = .ok rtx)
    (hneg : ¬ subInt r.totalShares R < 0)
    (hpost : env.PostTx L (splitTx api r R rtx.sender) api.priv = .ok txId)
    (hpost2 : env.PostTx (L ++ [⟨txId, splitTx api r R rtx.sender, api.priv⟩])
      (Tx.defaultIndividualCreate
        (Record.compositionRightTransfer r.rightId pid recipientId api.partyId txId) api.pub)
      api.priv = .ok id) :
    api.TransferCompositionRight env L rid tid pid recipientId R =
      ⟨.ok ⟨id, Record.compositionRightTransfer r.rightId pid recipientId api.partyId txId⟩,
        L ++ [⟨txId, splitTx api r R rtx.sender, api.priv⟩] ++
          [⟨id, Tx.defaultIndividualCreate
            (Record.compositionRightTransfer r.rightId pid recipientId api.partyId txId) api.pub,
            api.priv⟩],
        cs ++ [Call.getTx recipientId, Call.buildTx (splitTx api r R rtx.sender),
          Call.fulfillTx (splitTx api r R rtx.sender) api.priv,
          Call.postTx (splitTx api r R rtx.sender)] ++
        [Call.buildTx (Tx.defaultIndividualCreate
            (Record.compositionRightTransfer r.rightId pid recipientId api.partyId txId) api.pub),
          Call.fulfillTx (Tx.defaultIndividualCreate
            (Record.compositionRightTransfer r.rightId pid recipientId api.partyId txId) api.pub)
            api.priv,
          Call.postTx (Tx.defaultIndividualCreate
            (Record.compositionRightTransfer r.rightId pid recipientId api.partyId txId)
            api.pub)]⟩ := by
  unfold Api.TransferCompositionRight
  unfold splitTx at hpost hpost2 ⊢
  simp only [hres, hget, hneg, if_false, hpost, hpost2]

/-- The transfer transactions built by `TransferRecordingRight` once resolution and the
recipient lookup have succeeded: none if the request exceeds the holding, else the one
selected by the split step. -/
theorem recordingTransfers_of_resolved (env : Env) (api : Api) (L : Ledger)
    (rid tid lid recipientId : String) (R : Int) (r : Resolved) (cs : List Call)
    (rtx : StoredTx)
    (hres : resolveRecordingRight env api L rid tid lid = (.ok r, cs))
    (hget : env.GetTx L recipientId = .ok rtx) :
    (api.TransferRecordingRight env L rid tid recipientId R lid).transfers =
      if subInt r.totalShares R < 0 then [] else [splitTx api r R rtx.sender] := by
  obtain ⟨q1, -, -⟩ := resolveRecordingRight_quiet env api L rid tid lid _ cs hres
  unfold Api.TransferRecordingRight Outcome.transfers
  simp only [hres, hget]
  by_cases hneg : subInt r.totalShares R < 0
  · simp [hneg, q1, Call.builtTransfer]
  · simp only [hneg, if_false]
    by_cases hz : subInt r.totalShares R = 0
    · simp only [splitTx, hz, if_true]
      split
      · simp [q1, Call.builtTransfer, Tx.isTransfer]
      · split <;> simp [q1, Call.builtTransfer, Tx.isTransfer]
    · simp only [splitTx, hz, if_false]
      split
      · simp [q1, Call.builtTransfer, Tx.isTransfer]
      · split <;> simp [q1, Call.builtTransfer, Tx.isTransfer]

/-- A failed resolution ends the recording-right transfer with that error. -/
theorem recording_resolve_error (env : Env) (api : Api) (L : Ledger)
    (rid tid lid recipientId : String) (R : Int) (e : Err) (cs : List Call)
    (hres : resolveRecordingRight env api L rid tid lid = (.error e, cs)) :
    api.TransferRecordingRight env L rid tid recipientId R lid = ⟨.error e, L, cs⟩ := by
  unfold Api.TransferRecordingRight
  simp only [hres]

/-- A failed recipient lookup ends the recording-right transfer with that error. -/
theorem recording_lookup_error (env : Env) (api : Api) (L : Ledger)
    (rid tid lid recipientId : String) (R : Int) (r : Resolved) (e : Err) (cs : List Call)
    (hres : resolveRecordingRight env api L rid tid lid = (.ok r, cs))
    (hget : env.GetTx L recipientId = .error e) :
    api.TransferRecordingRight env L rid tid recipientId R lid =
      ⟨.error e, L, cs ++ [Call.getTx recipientId]⟩ := by
  unfold Api.TransferRecordingRight
  simp only [hres, hget]

/-- A negative remainder ends the recording-right transfer with CriteriaNotMet. -/
theorem recording_over (env : Env) (api : Api) (L : Ledger)
    (rid tid lid recipientId : String) (R : Int) (r : Resolved) (cs : List Call)
    (rtx : StoredTx)
    (hres : resolveRecordingRight env api L rid tid lid = (.ok r, cs))
    (hget : env.GetTx L recipientId = .ok rtx)
    (hneg : subInt r.totalShares R < 0) :
    api.TransferRecordingRight env L rid tid recipientId R lid =
      ⟨.error (Err.criteriaNotMet "cannot transfer this many shares"), L,
        cs ++ [Call.getTx recipientId]⟩ := by
  unfold Api.TransferRecordingRight
  simp only [hres, hget, hneg, if_true]

/-- A rejected transfer transaction ends the recording-right transfer; the ledger is unchanged. -/
theorem recording_post_error (env : Env) (api : Api) (L : Ledger)
    (rid tid lid recipientId : String) (R : Int) (r : Resolved) (cs : List Call)
    (rtx : StoredTx) (e : Err)
    (hres : resolveRecordingRight env api L rid tid lid = (.ok r, cs))
    (hget : env.GetTx L recipientId = .ok rtx)
    (hneg : ¬ subInt r.totalShares R < 0)
    (hpost : env.PostTx L (splitTx api r R rtx.sender) api.priv = .error e) :
    api.TransferRecordingRight env L rid tid recipientId R lid =
      ⟨.error e, L, cs ++ [Call.getTx recipientId, Call.buildTx (splitTx api r R rtx.sender),
        Call.fulfillTx (splitTx api r R rtx.sender) api.priv,
        Call.postTx (splitTx api r R rtx.sender)]⟩ := by
  unfold Api.TransferRecordingRight
  unfold splitTx at hpost ⊢
  simp only [hres, hget, hneg, if_false, hpost]

/-- A rejected receipt ends the recording-right transfer; the accepted transfer stays on the ledger. -/
theorem recording_receipt_error (env : Env) (api : Api) (L : Ledger)
    (rid tid lid recipientId : String) (R : Int) (r : Resolved) (cs : List Call)
    (rtx : StoredTx) (txId : String) (e : Err)
    (hres : resolveRecordingRight env api L rid tid lid = (.ok r, cs))
    (hget : env.GetTx L recipientId = .ok rtx)
    (hneg : ¬ subInt r.totalShares R < 0)
    (hpost : env.PostTx L (splitTx api r R rtx.sender) api.priv = .ok txId)
    (hpost2 : env.PostTx (L ++ [⟨txId, splitTx api r R rtx.sender, api.priv⟩])
      (Tx.defaultIndividualCreate
        (Record.recordingRightTransfer recipientId r.rightId lid api.partyId txId) api.pub)
      api.priv = .error e) :
    api.TransferRecordingRight env L rid tid recipientId R lid =
      ⟨.error e, L ++ [⟨txId, splitTx api r R rtx.sender, api.priv⟩],
        cs ++ [Call.getTx recipientId, Call.buildTx (splitTx api r R rtx.sender),
          Call.fulfillTx (splitTx api r R rtx.sender) api.priv,
          Call.postTx (splitTx api r R rtx.sender)] ++
        [Call.buildTx (Tx.defaultIndividualCreate
            (Record.recordingRightTransfer recipientId r.rightId lid api.partyId txId) api.pub),
          Call.fulfillTx (Tx.defaultIndividualCreate
            (Record.recordingRightTransfer recipientId r.rightId lid api.partyId txId) api.pub)
            api.priv,
          Call.postTx (Tx.defaultIndividualCreate
            (Record.recordingRightTransfer recipientId r.rightId lid api.partyId txId)
            api.pub)]⟩ := by
  unfold Api.TransferRecordingRight
  unfold splitTx at hpost hpost2 ⊢
  simp only [hres, hget, hneg, if_false, hpost, hpost2]

/-- The recording-right transfer succeeds when both submissions are accepted. -/
theorem recording_success (env : Env) (api : Api) (L : Ledger)
    (rid tid lid recipientId : String) (R : Int) (r : Resolved) (cs : List Call)
    (rtx : StoredTx) (txId id : String)
    (hres : resolveRecordingRight env api L rid tid lid = (.ok r, cs))
    (hget : env.GetTx L recipientId = .ok rtx)
    (hneg : ¬ subInt r.totalShares R < 0)
    (hpost : env.PostTx L (splitTx api r R rtx.sender) api.priv = .ok txId)
    (hpost2 : env.PostTx (L ++ [⟨txId, splitTx api r R rtx.sender, api.priv⟩])
      (Tx.defaultIndividualCreate
        (Record.recordingRightTransfer recipientId r.rightId lid api.partyId txId) api.pub)
      api.priv = .ok id) :
    api.TransferRecordingRight env L rid tid recipientId R lid =
      ⟨.ok ⟨id, Record.recordingRightTransfer recipientId r.rightId lid api.partyId txId⟩,
        L ++ [⟨txId, splitTx api r R rtx.sender, api.priv⟩] ++
          [⟨id, Tx.defaultIndividualCreate
            (Record.recordingRightTransfer recipientId r.rightId lid api.partyId txId) api.pub,
            api.priv⟩],
        cs ++ [Call.getTx recipientId, Call.buildTx (splitTx api r R rtx.sender),
          Call.fulfillTx (splitTx api r R rtx.sender) api.priv,
          Call.postTx (splitTx api r R rtx.sender)] ++
        [Call.buildTx (Tx.defaultIndividualCreate
            (Record.recordingRightTransfer recipientId r.rightId lid api.partyId txId) api.pub),
          Call.fulfillTx (Tx.defaultIndividualCreate
            (Record.recordingRightTransfer recipientId r.rightId lid api.partyId txId) api.pub)
            api.priv,
          Call.postTx (Tx.defaultIndividualCreate
            (Record.recordingRightTransfer recipientId r.rightId lid api.partyId txId)
            api.pub)]⟩ := by
  unfold Api.TransferRecordingRight
  unfold splitTx at hpost hpost2 ⊢
  simp only [hres, hget, hneg, if_false, hpost, hpost2]

/-- The transfer transactions built by a run of the composition-right transfer: none, or
exactly the one selected by the split step after a successful resolution and recipient
lookup with a remainder that is not negative. -/
theorem composition_transfers_cases (env : Env) (api : Api) (L : Ledger)
    (rid tid cid recipientId : String) (R : Int) :
    (api.TransferCompositionRight env L rid tid cid recipientId R).transfers = [] ∨
    ∃ r cs rtx, resolveCompositionRight env api L rid tid cid = (.ok r, cs) ∧
      env.GetTx L recipientId = .ok rtx ∧ ¬ subInt r.totalShares R < 0 ∧
      (api.TransferCompositionRight env L rid tid cid recipientId R).transfers = [splitTx api r R rtx.sender] := by
  rcases hres : resolveCompositionRight env api L rid tid cid with ⟨x, cs⟩
  obtain ⟨q1, -, -⟩ := resolveCompositionRight_quiet env api L rid tid cid x cs hres
  cases x with
  | error e0 =>
    left
    rw [composition_resolve_error env api L rid tid cid recipientId R e0 cs hres]
    simp [Outcome.transfers, q1]
  | ok r =>
    cases hget : env.GetTx L recipientId with
    | error e0 =>
      left
      rw [composition_lookup_error env api L rid tid cid recipientId R r e0 cs hres hget]
      simp [Outcome.transfers, q1, Call.builtTransfer]
    | ok rtx =>
      have key := compositionTransfers_of_resolved env api L rid tid cid recipientId R r cs rtx
        hres hget
      by_cases hneg : subInt r.totalShares R < 0
      · left
        rw [key, if_pos hneg]
      · right
        rw [if_neg hneg] at key
        exact ⟨r, cs, rtx, rfl, rfl, hneg, key⟩

/-- The transfer transactions built by a run of the recording-right transfer: none, or
exactly the one selected by the split step after a successful resolution and recipient
lookup with a remainder that is not negative. -/
theorem recording_transfers_cases (env : Env) (api : Api) (L : Ledger)
    (rid tid cid recipientId : String) (R : Int) :
    (api.TransferRecordingRight env L rid tid recipientId R cid).transfers = [] ∨
    ∃ r cs rtx, resolveRecordingRight env api L rid tid cid = (.ok r, cs) ∧
      env.GetTx L recipientId = .ok rtx ∧ ¬ subInt r.totalShares R < 0 ∧
      (api.TransferRecordingRight env L rid tid recipientId R cid).transfers = [splitTx api r R rtx.sender] := by
  rcases hres : resolveRecordingRight env api L rid tid cid with ⟨x, cs⟩
  obtain ⟨q1, -, -⟩ := resolveRecordingRight_quiet env api L rid tid cid x cs hres
  cases x with
  | error e0 =>
    left
    rw [recording_resolve_error env api L rid tid cid recipientId R e0 cs hres]
    simp [Outcome.transfers, q1]
  | ok r =>
    cases hget : env.GetTx L recipientId with
    | error e0 =>
      left
      rw [recording_lookup_error env api L rid tid cid recipientId R r e0 cs hres hget]
      simp [Outcome.transfers, q1, Call.builtTransfer]
    | ok rtx =>
      have key := recordingTransfers_of_resolved env api L rid tid cid recipientId R r cs rtx
        hres hget
      by_cases hneg : subInt r.totalShares R < 0
      · left
        rw [key, if_pos hneg]
      · right
        rw [if_neg hneg] at key
        exact ⟨r, cs, rtx, rfl, rfl, hneg, key⟩

/-- The transaction selected by the split step carries no record: it is the same on the
recording-right side. -/
theorem splitTx_toRecording (api : Api) (r : Resolved) (R : Int) (k : PublicKey) :
    (splitTx api r R k).toRecording = splitTx api r R k := by
  unfold splitTx
  split <;> rfl

/-- With corresponding validation answers, the resolution step of the recording-right
transfer yields what the resolution step of the composition-right transfer yields, and
makes the corresponding call. -/
theorem resolve_correspond (env : Env) (api : Api) (L : Ledger) (rid tid cid : String)
    (hT : env.ValidateRecordingRightTransfer L tid = env.ValidateCompositionRightTransfer L tid)
    (hH : env.ValidateRecordingRightHolder L api.partyId rid cid =
      env.ValidateCompositionRightHolder L rid cid api.partyId) :
    resolveRecordingRight env api L rid tid cid =
      ((resolveCompositionRight env api L rid tid cid).1,
        (resolveCompositionRight env api L rid tid cid).2.map Call.toRecording) := by
  unfold resolveRecordingRight resolveCompositionRight
  rw [hT, hH]
  by_cases hE : (!EmptyStr tid) = true
  · simp only [hE, if_true]
    cases env.ValidateCompositionRightTransfer L tid with
    | error e => rfl
    | ok t =>
      simp only
      split_ifs <;> rfl
  · simp only [hE, if_false]
    cases env.ValidateCompositionRightHolder L rid cid api.partyId with
    | error e => rfl
    | ok t => rfl

/-- Taking a call to the recording-right side does not change the transfer it builds. -/
theorem builtTransfer_toRecording (c : Call) :
    Call.builtTransfer c.toRecording = Call.builtTransfer c := by
  cases c with
  | buildTx tx => cases tx <;> rfl
  | _ => rfl

/-- Taking a call to the recording-right side does not change the party it looks up. -/
theorem lookedUp_toRecording (c : Call) :
    Call.lookedUp c.toRecording = Call.lookedUp c := by
  cases c <;> rfl

/-- A receipt keeps its fields when taken to the recording-right side. -/
theorem receiptFields_toRecording (r : Record) :
    r.toRecording.receiptFields = r.receiptFields := by
  cases r <;> rfl

/-- For a logged-in session and a POST request that names neither a publication nor a
release, `TransferHandler` invokes no operation, writes the bad-request error and then,
not having returned, writes the nil `Data` as JSON. -/
theorem transferHandler_without_container (c : Common) (env : Env) (api : Api) (L : Ledger)
    (req : Request) (values : String → String) (n : Int)
    (hlogin : api.LoggedIn = true) (hpost : req.method = "POST")
    (hvalues : req.values = .ok values)
    (hpub : values "publicationId" = "") (hrel : values "releaseId" = "")
    (hshares : c.MustAtoi (values "recipientShares") = some n) :
    api.TransferHandler c env L req =
      some ⟨[Write.httpError (Message.literal "Expected publicationId or releaseId") 400,
        Write.writeJSON Body.nil], [], L, []⟩ := by
  unfold Api.TransferHandler
  simp only [hlogin, hpost, hvalues, hshares, hpub, hrel]
  simp [EmptyStr, Selected.finish]

/-- For a logged-in session and a POST request that names neither a publication nor a
release, `LicenseHandler` invokes no operation, writes the bad-request error and
returns. -/
theorem licenseHandler_without_container (c : Common) (env : Env) (api : Api) (L : Ledger)
    (req : Request) (values : String → String)
    (hlogin : api.LoggedIn = true) (hpost : req.method = "POST")
    (hvalues : req.values = .ok values)
    (hpub : values "publicationId" = "") (hrel : values "releaseId" = "") :
    api.LicenseHandler c env L req =
      ⟨[Write.httpError (Message.literal "Expected publicationId or releaseId") 400],
        [], L, []⟩ := by
  unfold Api.LicenseHandler
  simp only [hlogin, hpost, hvalues, hpub, hrel]
  simp [EmptyStr, Selected.finish]

/-! ## Properties of the transfer operations and of login -/

/-- C1: when resolution gave `totalShares = T`, the recipient lookup succeeded and the
request `R` satisfies `0 ≤ R ≤ T` (with `T` a Go int), both transfer operations compute
`senderShares = T - R`, so that `R + senderShares = T`; for `R = T` they build exactly one
transfer transaction, a single-output transfer carrying `R` to the recipient key only, and
for `R < T` exactly one two-output divisible transfer whose output 0 carries `R` to the
recipient key and whose output 1 carries `T - R` to the session key. -/
theorem transfer_split_conserves_shares (env : Env) (api : Api) (L : Ledger)
    (rid tid cid recipientId : String) (R T : Int) (rtx : StoredTx)
    (h0 : 0 ≤ R) (hRT : R ≤ T) (hT : T ≤ intMax)
    (hget : env.GetTx L recipientId = .ok rtx) :
    subInt T R = T - R ∧ R + subInt T R = T ∧
    (∀ r cs, resolveCompositionRight env api L rid tid cid = (.ok r, cs) →
      r.totalShares = T →
      (R = T →
        (api.TransferCompositionRight env L rid tid cid recipientId R).transfers =
            [Tx.individualTransfer R r.rightId r.txId r.output (some rtx.sender) api.pub] ∧
          (api.TransferCompositionRight env L rid tid cid recipientId R).transfers.map
            Tx.outputs = [[(R, some rtx.sender)]]) ∧
      (R < T →
        (api.TransferCompositionRight env L rid tid cid recipientId R).transfers =
            [Tx.divisibleTransfer [R, T - R] r.rightId r.txId r.output
              [some rtx.sender, api.pub] api.pub] ∧
          (api.TransferCompositionRight env L rid tid cid recipientId R).transfers.map
            Tx.outputs = [[(R, some rtx.sender), (T - R, api.pub)]])) ∧
    (∀ r cs, resolveRecordingRight env api L rid tid cid = (.ok r, cs) →
      r.totalShares = T →
      (R = T →
        (api.TransferRecordingRight env L rid tid recipientId R cid).transfers =
            [Tx.individualTransfer R r.rightId r.txId r.output (some rtx.sender) api.pub] ∧
          (api.TransferRecordingRight env L rid tid recipientId R cid).transfers.map
            Tx.outputs = [[(R, some rtx.sender)]]) ∧
      (R < T →
        (api.TransferRecordingRight env L rid tid recipientId R cid).transfers =
            [Tx.divisibleTransfer [R, T - R] r.rightId r.txId r.output
              [some rtx.sender, api.pub] api.pub] ∧
          (api.TransferRecordingRight env L rid tid recipientId R cid).transfers.map
            Tx.outputs = [[(R, some rtx.sender), (T - R, api.pub)]])) := by
  have hsub : subInt T R = T - R := by
    unfold subInt
    apply wrapInt_of_inRange
    · unfold intMin
      omega
    · omega
  refine ⟨hsub, by rw [hsub]; omega, ?_, ?_⟩
  · intro r cs hres hr
    have key := compositionTransfers_of_resolved env api L rid tid cid recipientId R r cs rtx
      hres hget
    have hnn : ¬ subInt r.totalShares R < 0 := by rw [hr, hsub]; omega
    rw [if_neg hnn] at key
    rw [key]
    constructor
    · intro hEq
      have hz : subInt r.totalShares R = 0 := by rw [hr, hsub]; omega
      simp [splitTx, hz, Tx.outputs]
    · intro hlt
      have hz : ¬ subInt r.totalShares R = 0 := by rw [hr, hsub]; omega
      have hz2 : ¬ T - R = 0 := by omega
      simp only [splitTx, if_neg hz]
      simp [Tx.outputs, hr, hsub]
  · intro r cs hres hr
    have key := recordingTransfers_of_resolved env api L rid tid cid recipientId R r cs rtx
      hres hget
    have hnn : ¬ subInt r.totalShares R < 0 := by rw [hr, hsub]; omega
    rw [if_neg hnn] at key
    rw [key]
    constructor
    · intro hEq
      have hz : subInt r.totalShares R = 0 := by rw [hr, hsub]; omega
      simp [splitTx, hz, Tx.outputs]
    · intro hlt
      have hz : ¬ subInt r.totalShares R = 0 := by rw [hr, hsub]; omega
      have hz2 : ¬ T - R = 0 := by omega
      simp only [splitTx, if_neg hz]
      simp [Tx.outputs, hr, hsub]

/-- C1 at a concrete input: alice holds 100 shares of `right-1` and sends 40 to bob; the
composition transfer built has outputs 40 to bob and 60 back to alice. -/
theorem transfer_split_conserves_shares_witness :
    (alice.TransferCompositionRight demoEnv [] "right-1" "" "pub-1" "bob" 40).transfers.map
      Tx.outputs = [[(40, some ⟨"bob"⟩), (100 - 40, some ⟨"alice"⟩)]] :=
  (((transfer_split_conserves_shares demoEnv alice [] "right-1" "" "pub-1" "bob" 40 100
    ⟨⟨"bob"⟩, "bob"⟩ (by decide) (by decide) (by decide) rfl).2.2.1
    ⟨"right-1", "right-1", 0, 100⟩ [Call.validateRightHolder "right-1" "pub-1" "alice"]
    rfl rfl).2 (by decide)).2

/-- C3: when a prior transfer id is given and that transfer validates to `t`, the
resolution step of both operations yields, for whatever right id the caller supplied,
the right id and consumed `txId` recorded in `t`, with `totalShares = t.recipientShares`
and output index 0 if the session party is the recipient of `t`, and otherwise with
`totalShares = t.senderShares` and output index 1 if the session party is the sender of
`t`; the recipient-role result is the same for every value of the sender shares of `t`. -/
theorem resolve_by_prior_transfer (env : Env) (api : Api) (L : Ledger)
    (rid tid cid : String) (t : TransferRecord) (htid : tid ≠ "") :
    (env.ValidateCompositionRightTransfer L tid = .ok t →
      (api.partyId = t.recipientId →
        (resolveCompositionRight env api L rid tid cid).1 =
          .ok ⟨t.rightId, t.txId, 0, t.recipientShares⟩) ∧
      (api.partyId ≠ t.recipientId → api.partyId = t.senderId →
        (resolveCompositionRight env api L rid tid cid).1 =
          .ok ⟨t.rightId, t.txId, 1, t.senderShares⟩) ∧
      (api.partyId = t.recipientId → ∀ (env2 : Env) (s : Int),
        env2.ValidateCompositionRightTransfer L tid = .ok { t with senderShares := s } →
        (resolveCompositionRight env2 api L rid tid cid).1 =
          (resolveCompositionRight env api L rid tid cid).1)) ∧
    (env.ValidateRecordingRightTransfer L tid = .ok t →
      (api.partyId = t.recipientId →
        (resolveRecordingRight env api L rid tid cid).1 =
          .ok ⟨t.rightId, t.txId, 0, t.recipientShares⟩) ∧
      (api.partyId ≠ t.recipientId → api.partyId = t.senderId →
        (resolveRecordingRight env api L rid tid cid).1 =
          .ok ⟨t.rightId, t.txId, 1, t.senderShares⟩) ∧
      (api.partyId = t.recipientId → ∀ (env2 : Env) (s : Int),
        env2.ValidateRecordingRightTransfer L tid = .ok { t with senderShares := s } →
        (resolveRecordingRight env2 api L rid tid cid).1 =
          (resolveRecordingRight env api L rid tid cid).1)) := by
  have hne : (!EmptyStr tid) = true := by simp [EmptyStr, htid]
  constructor
  · intro hval
    refine ⟨?_, ?_, ?_⟩
    · intro hrec
      simp [resolveCompositionRight, hne, hval, hrec]
    · intro hnrec hsend
      simp only [resolveCompositionRight, hne, hval, if_true, if_neg hnrec]
      simp [hsend]
    · intro hrec env2 s hval2
      simp [resolveCompositionRight, hne, hval, hval2, hrec]
  · intro hval
    refine ⟨?_, ?_, ?_⟩
    · intro hrec
      simp [resolveRecordingRight, hne, hval, hrec]
    · intro hnrec hsend
      simp only [resolveRecordingRight, hne, hval, if_true, if_neg hnrec]
      simp [hsend]
    · intro hrec env2 s hval2
      simp [resolveRecordingRight, hne, hval, hval2, hrec]

/-- C3 at a concrete input: alice, the sender of `transfer-1`, resolves to her remainder
of 60 shares at output 1 of `tx-1`, whatever right id she supplies. -/
theorem resolve_by_prior_transfer_witness :
    (resolveCompositionRight demoEnv alice [] "another-right" "transfer-1" "pub-1").1 =
      .ok ⟨"right-1", "tx-1", 1, 60⟩ :=
  ((resolve_by_prior_transfer demoEnv alice [] "another-right" "transfer-1" "pub-1"
    demoTransfer (by decide)).1 rfl).2.1 (by decide) rfl

/-- C4: when a prior transfer id is given, that transfer validates to `t`, and the session
party is neither the recipient nor the sender of `t`, both operations fail with
CriteriaNotMet for every recipient id and every requested share count; the only
collaborator call made is the validation of the transfer, so the recipient is not looked
up, no transaction is built or submitted, and the ledger is left as it was. -/
theorem transfer_role_mismatch_fails (env : Env) (api : Api) (L : Ledger)
    (rid tid cid recipientId : String) (R : Int) (t : TransferRecord) (htid : tid ≠ "")
    (hrec : api.partyId ≠ t.recipientId) (hsend : api.partyId ≠ t.senderId) :
    (env.ValidateCompositionRightTransfer L tid = .ok t →
      (api.TransferCompositionRight env L rid tid cid recipientId R).result =
          .error (Err.criteriaNotMet
            "partyId does not match recipientId or senderId of TRANSFER tx") ∧
        (api.TransferCompositionRight env L rid tid cid recipientId R).calls =
          [Call.validateRightTransfer tid] ∧
        (api.TransferCompositionRight env L rid tid cid recipientId R).lookups = [] ∧
        (api.TransferCompositionRight env L rid tid cid recipientId R).transfers = [] ∧
        (api.TransferCompositionRight env L rid tid cid recipientId R).posts = [] ∧
        (api.TransferCompositionRight env L rid tid cid recipientId R).ledger = L) ∧
    (env.ValidateRecordingRightTransfer L tid = .ok t →
      (api.TransferRecordingRight env L rid tid recipientId R cid).result =
          .error (Err.criteriaNotMet
            "partyId does not match recipientId or senderId of TRANSFER tx") ∧
        (api.TransferRecordingRight env L rid tid recipientId R cid).calls =
          [Call.validateRightTransfer tid] ∧
        (api.TransferRecordingRight env L rid tid recipientId R cid).lookups = [] ∧
        (api.TransferRecordingRight env L rid tid recipientId R cid).transfers = [] ∧
        (api.TransferRecordingRight env L rid tid recipientId R cid).posts = [] ∧
        (api.TransferRecordingRight env L rid tid recipientId R cid).ledger = L) := by
  have hne : (!EmptyStr tid) = true := by simp [EmptyStr, htid]
  constructor
  · intro hval
    have hres : resolveCompositionRight env api L rid tid cid =
        (.error (Err.criteriaNotMet
          "partyId does not match recipientId or senderId of TRANSFER tx"),
          [Call.validateRightTransfer tid]) := by
      simp only [resolveCompositionRight, hne, hval, if_true, if_neg hrec, if_neg hsend]
    rw [composition_resolve_error env api L rid tid cid recipientId R _ _ hres]
    simp [Outcome.lookups, Outcome.transfers, Outcome.posts, Call.lookedUp,
      Call.builtTransfer, Call.posted]
  · intro hval
    have hres : resolveRecordingRight env api L rid tid cid =
        (.error (Err.criteriaNotMet
          "partyId does not match recipientId or senderId of TRANSFER tx"),
          [Call.validateRightTransfer tid]) := by
      simp only [resolveRecordingRight, hne, hval, if_true, if_neg hrec, if_neg hsend]
    rw [recording_resolve_error env api L rid tid cid recipientId R _ _ hres]
    simp [Outcome.lookups, Outcome.transfers, Outcome.posts, Call.lookedUp,
      Call.builtTransfer, Call.posted]

/-- C4 at a concrete input: carol took no part in `transfer-1` and refers to it. -/
theorem transfer_role_mismatch_fails_witness :
    (carol.TransferCompositionRight demoEnv [] "right-1" "transfer-1" "pub-1" "bob" 10).result =
        .error (Err.criteriaNotMet
          "partyId does not match recipientId or senderId of TRANSFER tx") ∧
      (carol.TransferCompositionRight demoEnv [] "right-1" "transfer-1" "pub-1" "bob" 10).calls =
        [Call.validateRightTransfer "transfer-1"] ∧
      (carol.TransferCompositionRight demoEnv [] "right-1" "transfer-1" "pub-1" "bob" 10).lookups
        = [] ∧
      (carol.TransferCompositionRight demoEnv [] "right-1" "transfer-1" "pub-1" "bob"
        10).transfers = [] ∧
      (carol.TransferCompositionRight demoEnv [] "right-1" "transfer-1" "pub-1" "bob" 10).posts
        = [] ∧
      (carol.TransferCompositionRight demoEnv [] "right-1" "transfer-1" "pub-1" "bob" 10).ledger
        = [] :=
  (transfer_role_mismatch_fails demoEnv carol [] "right-1" "transfer-1" "pub-1" "bob" 10
    demoTransfer (by decide) (by decide) (by decide)).1 rfl

/-- C5, refuted as stated: on a ledger that accepts the transfer transaction and rejects
the receipt, the operation returns a failure although the transfer transaction it
submitted has been accepted and stays on the ledger. -/
theorem failed_transfer_leaves_state_counterexample :
    (alice.TransferCompositionRight rejectReceiptEnv [] "right-1" "" "pub-1" "bob" 40).result =
        .error (Err.other "rejected") ∧
      (alice.TransferCompositionRight rejectReceiptEnv [] "right-1" "" "pub-1" "bob" 40).ledger =
        [⟨"new-1", Tx.divisibleTransfer [40, 60] "right-1" "right-1" 0
          [some ⟨"bob"⟩, some ⟨"alice"⟩] (some ⟨"alice"⟩), some ⟨"alice"⟩⟩] ∧
      (alice.TransferRecordingRight rejectReceiptEnv [] "right-1" "" "bob" 40 "rel-1").result =
        .error (Err.other "rejected") ∧
      (alice.TransferRecordingRight rejectReceiptEnv [] "right-1" "" "bob" 40 "rel-1").ledger =
        [⟨"new-1", Tx.divisibleTransfer [40, 60] "right-1" "right-1" 0
          [some ⟨"bob"⟩, some ⟨"alice"⟩] (some ⟨"alice"⟩), some ⟨"alice"⟩⟩] := by
  refine ⟨?_, ?_, ?_, ?_⟩ <;> rfl

/-- C5, amended: whenever a transfer operation returns a failure, either the ledger is
as it was before the call, or the failure is the rejection of the receipt and the ledger
holds exactly one more transaction, the transfer transaction that the ledger accepted; in
no failed call is a receipt accepted.  In every call, a creation transaction (the receipt)
is submitted only if the ledger accepted the transfer transaction before. -/
theorem failed_transfer_leaves_no_receipt (env : Env) (api : Api) (L : Ledger)
    (rid tid cid recipientId : String) (R : Int) :
    ((∀ e, (api.TransferCompositionRight env L rid tid cid recipientId R).result = .error e →
        (api.TransferCompositionRight env L rid tid cid recipientId R).ledger = L ∨
        ∃ tx txId c, tx.isTransfer = true ∧ c.isTransfer = false ∧
          (api.TransferCompositionRight env L rid tid cid recipientId R).posts = [tx, c] ∧
          env.PostTx L tx api.priv = .ok txId ∧
          env.PostTx (L ++ [⟨txId, tx, api.priv⟩]) c api.priv = .error e ∧
          (api.TransferCompositionRight env L rid tid cid recipientId R).ledger = L ++ [⟨txId, tx, api.priv⟩]) ∧
      (∀ p ∈ (api.TransferCompositionRight env L rid tid cid recipientId R).posts, p.isTransfer = false →
        ∃ tx txId, tx.isTransfer = true ∧ env.PostTx L tx api.priv = .ok txId ∧
          (⟨txId, tx, api.priv⟩ : Posted) ∈ (api.TransferCompositionRight env L rid tid cid recipientId R).ledger)) ∧
    ((∀ e, (api.TransferRecordingRight env L rid tid recipientId R cid).result = .error e →
        (api.TransferRecordingRight env L rid tid recipientId R cid).ledger = L ∨
        ∃ tx txId c, tx.isTransfer = true ∧ c.isTransfer = false ∧
          (api.TransferRecordingRight env L rid tid recipientId R cid).posts = [tx, c] ∧
          env.PostTx L tx api.priv = .ok txId ∧
          env.PostTx (L ++ [⟨txId, tx, api.priv⟩]) c api.priv = .error e ∧
          (api.TransferRecordingRight env L rid tid recipientId R cid).ledger = L ++ [⟨txId, tx, api.priv⟩]) ∧
      (∀ p ∈ (api.TransferRecordingRight env L rid tid recipientId R cid).posts, p.isTransfer = false →
        ∃ tx txId, tx.isTransfer = true ∧ env.PostTx L tx api.priv = .ok txId ∧
          (⟨txId, tx, api.priv⟩ : Posted) ∈ (api.TransferRecordingRight env L rid tid recipientId R cid).ledger)) := by
  constructor
  ·
    rcases hres : resolveCompositionRight env api L rid tid cid with ⟨x, cs⟩
    obtain ⟨-, q2, -⟩ := resolveCompositionRight_quiet env api L rid tid cid x cs hres
    cases x with
    | error e0 =>
      rw [composition_resolve_error env api L rid tid cid recipientId R e0 cs hres]
      refine ⟨fun e _ => Or.inl rfl, ?_⟩
      simp [Outcome.posts, q2]
    | ok r =>
      cases hget : env.GetTx L recipientId with
      | error e0 =>
        rw [composition_lookup_error env api L rid tid cid recipientId R r e0 cs hres hget]
        refine ⟨fun e _ => Or.inl rfl, ?_⟩
        simp [Outcome.posts, q2, Call.posted]
      | ok rtx =>
        by_cases hneg : subInt r.totalShares R < 0
        · rw [composition_over env api L rid tid cid recipientId R r cs rtx hres hget hneg]
          refine ⟨fun e _ => Or.inl rfl, ?_⟩
          simp [Outcome.posts, q2, Call.posted]
        · cases hpost : env.PostTx L (splitTx api r R rtx.sender) api.priv with
          | error e0 =>
            rw [composition_post_error env api L rid tid cid recipientId R r cs rtx e0 hres hget
              hneg hpost]
            refine ⟨fun e _ => Or.inl rfl, ?_⟩
            simp [Outcome.posts, q2, Call.posted, splitTx_isTransfer]
          | ok txId =>
            cases hpost2 : env.PostTx (L ++ [⟨txId, splitTx api r R rtx.sender, api.priv⟩])
                (Tx.defaultIndividualCreate (Record.compositionRightTransfer r.rightId cid recipientId api.partyId txId) api.pub) api.priv with
            | error e0 =>
              rw [composition_receipt_error env api L rid tid cid recipientId R r cs rtx txId e0
                hres hget hneg hpost hpost2]
              constructor
              · intro e he
                right
                simp only [Except.error.injEq] at he
                subst he
                refine ⟨splitTx api r R rtx.sender, txId, _, splitTx_isTransfer api r R rtx.sender,
                  ?_, ?_, hpost, hpost2, rfl⟩
                · rfl
                · simp [Outcome.posts, q2, Call.posted]
              · intro p _ _
                exact ⟨splitTx api r R rtx.sender, txId, splitTx_isTransfer api r R rtx.sender,
                  hpost, by simp⟩
            | ok id =>
              rw [composition_success env api L rid tid cid recipientId R r cs rtx txId id
                hres hget hneg hpost hpost2]
              constructor
              · intro e he
                simp at he
              · intro p _ _
                exact ⟨splitTx api r R rtx.sender, txId, splitTx_isTransfer api r R rtx.sender,
                  hpost, by simp⟩
  ·
    rcases hres : resolveRecordingRight env api L rid tid cid with ⟨x, cs⟩
    obtain ⟨-, q2, -⟩ := resolveRecordingRight_quiet env api L rid tid cid x cs hres
    cases x with
    | error e0 =>
      rw [recording_resolve_error env api L rid tid cid recipientId R e0 cs hres]
      refine ⟨fun e _ => Or.inl rfl, ?_⟩
      simp [Outcome.posts, q2]
    | ok r =>
      cases hget : env.GetTx L recipientId with
      | error e0 =>
        rw [recording_lookup_error env api L rid tid cid recipientId R r e0 cs hres hget]
        refine ⟨fun e _ => Or.inl rfl, ?_⟩
        simp [Outcome.posts, q2, Call.posted]
      | ok rtx =>
        by_cases hneg : subInt r.totalShares R < 0
        · rw [recording_over env api L rid tid cid recipientId R r cs rtx hres hget hneg]
          refine ⟨fun e _ => Or.inl rfl, ?_⟩
          simp [Outcome.posts, q2, Call.posted]
        · cases hpost : env.PostTx L (splitTx api r R rtx.sender) api.priv with
          | error e0 =>
            rw [recording_post_error env api L rid tid cid recipientId R r cs rtx e0 hres hget
              hneg hpost]
            refine ⟨fun e _ => Or.inl rfl, ?_⟩
            simp [Outcome.posts, q2, Call.posted, splitTx_isTransfer]
          | ok txId =>
            cases hpost2 : env.PostTx (L ++ [⟨txId, splitTx api r R rtx.sender, api.priv⟩])
                (Tx.defaultIndividualCreate (Record.recordingRightTransfer recipientId r.rightId cid api.partyId txId) api.pub) api.priv with
            | error e0 =>
              rw [recording_receipt_error env api L rid tid cid recipientId R r cs rtx txId e0
                hres hget hneg hpost hpost2]
              constructor
              · intro e he
                right
                simp only [Except.error.injEq] at he
                subst he
                refine ⟨splitTx api r R rtx.sender, txId, _, splitTx_isTransfer api r R rtx.sender,
                  ?_, ?_, hpost, hpost2, rfl⟩
                · rfl
                · simp [Outcome.posts, q2, Call.posted]
              · intro p _ _
                exact ⟨splitTx api r R rtx.sender, txId, splitTx_isTransfer api r R rtx.sender,
                  hpost, by simp⟩
            | ok id =>
              rw [recording_success env api L rid tid cid recipientId R r cs rtx txId id
                hres hget hneg hpost hpost2]
              constructor
              · intro e he
                simp at he
              · intro p _ _
                exact ⟨splitTx api r R rtx.sender, txId, splitTx_isTransfer api r R rtx.sender,
                  hpost, by simp⟩

/-- C5 amended, at a concrete input: the receipt of alice is rejected; the failed call leaves
the accepted transfer transaction, and nothing else, on the ledger. -/
theorem failed_transfer_leaves_no_receipt_witness :
    (alice.TransferCompositionRight rejectReceiptEnv [] "right-1" "" "pub-1" "bob" 40).ledger = [] ∨
    ∃ tx txId c, tx.isTransfer = true ∧ c.isTransfer = false ∧
      (alice.TransferCompositionRight rejectReceiptEnv [] "right-1" "" "pub-1" "bob" 40).posts =
        [tx, c] ∧
      rejectReceiptEnv.PostTx [] tx alice.priv = .ok txId ∧
      rejectReceiptEnv.PostTx ([] ++ [⟨txId, tx, alice.priv⟩]) c alice.priv =
        .error (Err.other "rejected") ∧
      (alice.TransferCompositionRight rejectReceiptEnv [] "right-1" "" "pub-1" "bob" 40).ledger =
        [] ++ [⟨txId, tx, alice.priv⟩] :=
  (failed_transfer_leaves_no_receipt rejectReceiptEnv alice [] "right-1" "" "pub-1" "bob"
    40).1.1 (Err.other "rejected") rfl

/-- C6, refuted as stated: alice holds 100 shares and requests a transfer of -5 shares;
the remainder is 105, which is not negative, so the operation builds (and submits) a
divisible transfer whose output 0 carries -5 shares. -/
theorem transfer_outputs_nonneg_counterexample :
    (alice.TransferCompositionRight demoEnv [] "right-1" "" "pub-1" "bob" (-5)).transfers.map
        Tx.outputs = [[(-5, some ⟨"bob"⟩), (105, some ⟨"alice"⟩)]] ∧
      (alice.TransferCompositionRight demoEnv [] "right-1" "" "pub-1" "bob" (-5)).posts.length
        = 2 ∧
      (-5 : Int) < 0 := by
  refine ⟨?_, ?_, by decide⟩ <;> rfl

/-- C6, amended: for every integer request `R` and whatever the collaborators answer, every
transfer transaction a transfer operation builds carries either the single amount `R`
(the sender remainder being zero) or the two amounts `R` and a remainder that is
positive; so the sender remainder is never negative, and when the request satisfies
`0 ≤ R` every amount carried is non-negative. -/
theorem transfer_outputs_nonneg (env : Env) (api : Api) (L : Ledger)
    (rid tid cid recipientId : String) (R : Int) :
    (∀ tx ∈ (api.TransferCompositionRight env L rid tid cid recipientId R).transfers,
      (tx.outputs.map Prod.fst = [R] ∨
        ∃ s, 0 < s ∧ tx.outputs.map Prod.fst = [R, s]) ∧
      (0 ≤ R → ∀ a ∈ tx.outputs.map Prod.fst, 0 ≤ a)) ∧
    (∀ tx ∈ (api.TransferRecordingRight env L rid tid recipientId R cid).transfers,
      (tx.outputs.map Prod.fst = [R] ∨
        ∃ s, 0 < s ∧ tx.outputs.map Prod.fst = [R, s]) ∧
      (0 ≤ R → ∀ a ∈ tx.outputs.map Prod.fst, 0 ≤ a)) := by
  have split_amounts : ∀ (r : Resolved) (k : PublicKey), ¬ subInt r.totalShares R < 0 →
      ((splitTx api r R k).outputs.map Prod.fst = [R] ∨
        ∃ s, 0 < s ∧ (splitTx api r R k).outputs.map Prod.fst = [R, s]) ∧
      (0 ≤ R → ∀ a ∈ (splitTx api r R k).outputs.map Prod.fst, 0 ≤ a) := by
    intro r k hneg
    by_cases hz : subInt r.totalShares R = 0
    · simp only [splitTx, if_pos hz]
      simp [Tx.outputs]
    · have hpos : 0 < subInt r.totalShares R := by omega
      simp only [splitTx, if_neg hz]
      refine ⟨Or.inr ⟨subInt r.totalShares R, hpos, by simp [Tx.outputs]⟩, ?_⟩
      intro hR a ha
      simp only [Tx.outputs, List.zip_cons_cons, List.zip_nil_right, List.map_cons,
        List.map_nil, List.mem_cons, List.mem_singleton] at ha
      rcases ha with ha | ha | ha
      · omega
      · omega
      · simp at ha
  constructor
  · intro tx htx
    rcases composition_transfers_cases env api L rid tid cid recipientId R with h | h
    · rw [h] at htx
      simp at htx
    · obtain ⟨r, cs, rtx, -, -, hneg, h⟩ := h
      rw [h, List.mem_singleton] at htx
      subst htx
      exact split_amounts r rtx.sender hneg
  · intro tx htx
    rcases recording_transfers_cases env api L rid tid cid recipientId R with h | h
    · rw [h] at htx
      simp at htx
    · obtain ⟨r, cs, rtx, -, -, hneg, h⟩ := h
      rw [h, List.mem_singleton] at htx
      subst htx
      exact split_amounts r rtx.sender hneg

/-- C6 amended, at a concrete input: alice sends 40 of her 100 shares; the transfer built
carries 40 and 60, both non-negative. -/
theorem transfer_outputs_nonneg_witness :
    ∀ a ∈ (Tx.divisibleTransfer [40, 60] "right-1" "right-1" 0
        [some ⟨"bob"⟩, some ⟨"alice"⟩] (some ⟨"alice"⟩)).outputs.map Prod.fst, (0 : Int) ≤ a :=
  ((transfer_outputs_nonneg demoEnv alice [] "right-1" "" "pub-1" "bob" 40).1
    (Tx.divisibleTransfer [40, 60] "right-1" "right-1" 0
      [some ⟨"bob"⟩, some ⟨"alice"⟩] (some ⟨"alice"⟩)) (by decide)).2 (by decide)

/-- C7, refuted as stated: the prior transfer `transfer-1` was a full transfer, leaving its
sender alice no remainder (sender shares 0, a single output).  Alice refers to it and
requests a transfer of 0 shares: the operation builds and submits a transfer that consumes
output index 1 of `tx-1`. -/
theorem transfer_consumes_existing_output_counterexample :
    fullTransferEnv.ValidateCompositionRightTransfer [] "transfer-1" = .ok fullTransfer ∧
      fullTransfer.senderShares = 0 ∧
      (alice.TransferCompositionRight fullTransferEnv [] "" "transfer-1" "pub-1" "carol"
        0).transfers =
        [Tx.individualTransfer 0 "right-1" "tx-1" 1 (some ⟨"carol"⟩) (some ⟨"alice"⟩)] ∧
      (alice.TransferCompositionRight fullTransferEnv [] "" "transfer-1" "pub-1" "carol"
        0).transfers.map Tx.consumed = [some ("tx-1", 1)] ∧
      (alice.TransferCompositionRight fullTransferEnv [] "" "transfer-1" "pub-1" "carol"
        0).posts.length = 2 := by
  refine ⟨rfl, rfl, ?_, ?_, ?_⟩ <;> rfl

/-- C7, amended: every transfer transaction a transfer operation builds consumes exactly
one allocation, chosen by the role of the session party alone: output 0 of the right
itself on a direct reference, output 0 of the transaction recorded in the prior transfer
when the session party is its recipient, and output 1 of that transaction when the
session party is its sender and not its recipient.  When in the last case the request is
positive and the recorded sender shares are a non-negative Go int, the request is at most
the sender shares, which are then positive. -/
theorem transfer_consumes_one_allocation (env : Env) (api : Api) (L : Ledger)
    (rid tid cid recipientId : String) (R : Int) :
    (∀ tx ∈ (api.TransferCompositionRight env L rid tid cid recipientId R).transfers,
      (tid = "" → tx.consumed = some (rid, 0)) ∧
      (tid ≠ "" → ∀ t, env.ValidateCompositionRightTransfer L tid = .ok t →
        (api.partyId = t.recipientId → tx.consumed = some (t.txId, 0)) ∧
        (api.partyId ≠ t.recipientId →
          tx.consumed = some (t.txId, 1) ∧ api.partyId = t.senderId ∧
          (0 < R → R ≤ intMax → 0 ≤ t.senderShares → t.senderShares ≤ intMax →
            R ≤ t.senderShares ∧ 0 < t.senderShares)))) ∧
    (∀ tx ∈ (api.TransferRecordingRight env L rid tid recipientId R cid).transfers,
      (tid = "" → tx.consumed = some (rid, 0)) ∧
      (tid ≠ "" → ∀ t, env.ValidateRecordingRightTransfer L tid = .ok t →
        (api.partyId = t.recipientId → tx.consumed = some (t.txId, 0)) ∧
        (api.partyId ≠ t.recipientId →
          tx.consumed = some (t.txId, 1) ∧ api.partyId = t.senderId ∧
          (0 < R → R ≤ intMax → 0 ≤ t.senderShares → t.senderShares ≤ intMax →
            R ≤ t.senderShares ∧ 0 < t.senderShares)))) := by
  constructor
  ·
    intro tx htx
    rcases composition_transfers_cases env api L rid tid cid recipientId R with h | h
    · rw [h] at htx
      simp at htx
    · obtain ⟨r, cs, rtx, hres, -, hneg, h⟩ := h
      rw [h, List.mem_singleton] at htx
      subst htx
      have hcons : (splitTx api r R rtx.sender).consumed = some (r.txId, r.output) := by
        unfold splitTx
        split <;> rfl
      rw [hcons]
      constructor
      · intro htid
        have hE : (!EmptyStr tid) = false := by simp [EmptyStr, htid]
        simp only [resolveCompositionRight, hE, Bool.false_eq_true, if_false] at hres
        split at hres
        · simp at hres
        · simp only [Prod.mk.injEq, Except.ok.injEq] at hres
          rw [← hres.1]
      · intro htid t hval
        have hE : (!EmptyStr tid) = true := by simp [EmptyStr, htid]
        simp only [resolveCompositionRight, hE, hval, if_true] at hres
        constructor
        · intro hrec
          simp only [if_pos hrec, Prod.mk.injEq, Except.ok.injEq] at hres
          rw [← hres.1]
        · intro hrec
          simp only [if_neg hrec] at hres
          by_cases hsend : api.partyId = t.senderId
          · simp only [if_pos hsend, Prod.mk.injEq, Except.ok.injEq] at hres
            refine ⟨by rw [← hres.1], hsend, ?_⟩
            intro hR hRmax hT hTmax
            have hts : r.totalShares = t.senderShares := by rw [← hres.1]
            rw [hts] at hneg
            unfold subInt wrapInt at hneg
            unfold intMax at hRmax hTmax
            omega
          · simp [if_neg hsend] at hres
  ·
    intro tx htx
    rcases recording_transfers_cases env api L rid tid cid recipientId R with h | h
    · rw [h] at htx
      simp at htx
    · obtain ⟨r, cs, rtx, hres, -, hneg, h⟩ := h
      rw [h, List.mem_singleton] at htx
      subst htx
      have hcons : (splitTx api r R rtx.sender).consumed = some (r.txId, r.output) := by
        unfold splitTx
        split <;> rfl
      rw [hcons]
      constructor
      · intro htid
        have hE : (!EmptyStr tid) = false := by simp [EmptyStr, htid]
        simp only [resolveRecordingRight, hE, Bool.false_eq_true, if_false] at hres
        split at hres
        · simp at hres
        · simp only [Prod.mk.injEq, Except.ok.injEq] at hres
          rw [← hres.1]
      · intro htid t hval
        have hE : (!EmptyStr tid) = true := by simp [EmptyStr, htid]
        simp only [resolveRecordingRight, hE, hval, if_true] at hres
        constructor
        · intro hrec
          simp only [if_pos hrec, Prod.mk.injEq, Except.ok.injEq] at hres
          rw [← hres.1]
        · intro hrec
          simp only [if_neg hrec] at hres
          by_cases hsend : api.partyId = t.senderId
          · simp only [if_pos hsend, Prod.mk.injEq, Except.ok.injEq] at hres
            refine ⟨by rw [← hres.1], hsend, ?_⟩
            intro hR hRmax hT hTmax
            have hts : r.totalShares = t.senderShares := by rw [← hres.1]
            rw [hts] at hneg
            unfold subInt wrapInt at hneg
            unfold intMax at hRmax hTmax
            omega
          · simp [if_neg hsend] at hres

/-- C7 amended, at a concrete input: alice, sender of `transfer-1` with a remainder of 60
shares, sends 20 of them to carol; the transfer built consumes output 1 of `tx-1`. -/
theorem transfer_consumes_one_allocation_witness :
    (Tx.divisibleTransfer [20, 40] "right-1" "tx-1" 1
        [some ⟨"carol"⟩, some ⟨"alice"⟩] (some ⟨"alice"⟩)).consumed =
        some (demoTransfer.txId, 1) ∧
      alice.partyId = demoTransfer.senderId ∧
      ((0 : Int) < 20 → (20 : Int) ≤ intMax → 0 ≤ demoTransfer.senderShares →
        demoTransfer.senderShares ≤ intMax →
        20 ≤ demoTransfer.senderShares ∧ 0 < demoTransfer.senderShares) :=
  ((((transfer_consumes_one_allocation demoEnv alice [] "" "transfer-1" "pub-1" "carol" 20).1
    (Tx.divisibleTransfer [20, 40] "right-1" "tx-1" 1
      [some ⟨"carol"⟩, some ⟨"alice"⟩] (some ⟨"alice"⟩)) (by decide)).2 (by decide)
    demoTransfer rfl).2 (by decide))

/-- C8: for every session state, party id and parsable private key whose derived public
key differs from the public key recorded on the ledger for that party id, `Login` fails
with `ErrInvalidKey` and leaves the party id, private key and public key of the session
unchanged, so `LoggedIn` answers as before; in particular an empty session stays empty
and `LoggedIn` stays false. -/
theorem login_key_mismatch_fails (env : Env) (L : Ledger) (api : Api)
    (partyId privstr : String) (priv : PrivateKey) (tx : StoredTx)
    (hparse : env.FromString privstr = .ok priv)
    (hquery : env.QueryAndValidateModel L partyId = .ok tx)
    (hkey : tx.sender ≠ env.Public priv) :
    api.Login env L partyId privstr = (some Err.invalidKey, api) ∧
      (api.Login env L partyId privstr).2.LoggedIn = api.LoggedIn ∧
      (NewApi.Login env L partyId privstr).2 = NewApi ∧
      (NewApi.Login env L partyId privstr).2.LoggedIn = false := by
  have hlogin : ∀ a : Api, a.Login env L partyId privstr = (some Err.invalidKey, a) := by
    intro a
    unfold Api.Login
    simp only [hparse, hquery]
    rw [if_pos hkey]
  refine ⟨hlogin api, ?_, ?_, ?_⟩
  · rw [hlogin api]
  · rw [hlogin NewApi]
  · rw [hlogin NewApi]
    rfl

/-- C8 at a concrete input: a well-formed key that is not the key of alice. -/
theorem login_key_mismatch_fails_witness :
    NewApi.Login demoEnv [] "alice" "mallory" = (some Err.invalidKey, NewApi) ∧
      (NewApi.Login demoEnv [] "alice" "mallory").2.LoggedIn = NewApi.LoggedIn ∧
      (NewApi.Login demoEnv [] "alice" "mallory").2 = NewApi ∧
      (NewApi.Login demoEnv [] "alice" "mallory").2.LoggedIn = false :=
  login_key_mismatch_fails demoEnv [] NewApi "alice" "mallory" ⟨"mallory"⟩ ⟨⟨"alice"⟩, "alice"⟩
    rfl rfl (by decide)

/-- C9: when resolution and the recipient lookup succeeded, the remainder is not negative
and the ledger accepts the transfer transaction with the new id `newId`, both operations
build the receipt from the resolved right id (the one recorded in the prior transfer when
a transfer id is given, the supplied one otherwise), the publication or release id, the
requested recipient id, the session party id as sender and `newId`; they submit exactly
the transfer and then the receipt as a creation transaction owned by the session public
key; and when that submission is accepted with `id` they return the receipt with `id`. -/
theorem transfer_posts_receipt (env : Env) (api : Api) (L : Ledger)
    (rid tid cid recipientId : String) (R : Int) (rtx : StoredTx)
    (hget : env.GetTx L recipientId = .ok rtx) :
    (∀ r cs newId, resolveCompositionRight env api L rid tid cid = (.ok r, cs) →
      0 ≤ subInt r.totalShares R →
      env.PostTx L (splitTx api r R rtx.sender) api.priv = .ok newId →
      (api.TransferCompositionRight env L rid tid cid recipientId R).transfers = [splitTx api r R rtx.sender] ∧
      (api.TransferCompositionRight env L rid tid cid recipientId R).posts =
        [splitTx api r R rtx.sender, Tx.defaultIndividualCreate (Record.compositionRightTransfer r.rightId cid recipientId api.partyId newId) api.pub] ∧
      (∀ id, env.PostTx (L ++ [⟨newId, splitTx api r R rtx.sender, api.priv⟩])
          (Tx.defaultIndividualCreate (Record.compositionRightTransfer r.rightId cid recipientId api.partyId newId) api.pub) api.priv = .ok id →
        (api.TransferCompositionRight env L rid tid cid recipientId R).result = .ok ⟨id, Record.compositionRightTransfer r.rightId cid recipientId api.partyId newId⟩) ∧
      (tid ≠ "" → ∀ t, env.ValidateCompositionRightTransfer L tid = .ok t → r.rightId = t.rightId) ∧
      (tid = "" → r.rightId = rid)) ∧
    (∀ r cs newId, resolveRecordingRight env api L rid tid cid = (.ok r, cs) →
      0 ≤ subInt r.totalShares R →
      env.PostTx L (splitTx api r R rtx.sender) api.priv = .ok newId →
      (api.TransferRecordingRight env L rid tid recipientId R cid).transfers = [splitTx api r R rtx.sender] ∧
      (api.TransferRecordingRight env L rid tid recipientId R cid).posts =
        [splitTx api r R rtx.sender, Tx.defaultIndividualCreate (Record.recordingRightTransfer recipientId r.rightId cid api.partyId newId) api.pub] ∧
      (∀ id, env.PostTx (L ++ [⟨newId, splitTx api r R rtx.sender, api.priv⟩])
          (Tx.defaultIndividualCreate (Record.recordingRightTransfer recipientId r.rightId cid api.partyId newId) api.pub) api.priv = .ok id →
        (api.TransferRecordingRight env L rid tid recipientId R cid).result = .ok ⟨id, Record.recordingRightTransfer recipientId r.rightId cid api.partyId newId⟩) ∧
      (tid ≠ "" → ∀ t, env.ValidateRecordingRightTransfer L tid = .ok t → r.rightId = t.rightId) ∧
      (tid = "" → r.rightId = rid)) := by
  constructor
  ·
    intro r cs newId hres hnn hpost
    have hneg : ¬ subInt r.totalShares R < 0 := by omega
    obtain ⟨-, q2, -⟩ := resolveCompositionRight_quiet env api L rid tid cid _ cs hres
    have htr := compositionTransfers_of_resolved env api L rid tid cid recipientId R r cs rtx
      hres hget
    rw [if_neg hneg] at htr
    refine ⟨htr, ?_, ?_, ?_, ?_⟩
    · cases hpost2 : env.PostTx (L ++ [⟨newId, splitTx api r R rtx.sender, api.priv⟩])
          (Tx.defaultIndividualCreate (Record.compositionRightTransfer r.rightId cid recipientId api.partyId newId) api.pub) api.priv with
      | error e0 =>
        rw [composition_receipt_error env api L rid tid cid recipientId R r cs rtx newId e0
          hres hget hneg hpost hpost2]
        simp [Outcome.posts, q2, Call.posted]
      | ok id =>
        rw [composition_success env api L rid tid cid recipientId R r cs rtx newId id
          hres hget hneg hpost hpost2]
        simp [Outcome.posts, q2, Call.posted]
    · intro id hpost2
      rw [composition_success env api L rid tid cid recipientId R r cs rtx newId id
        hres hget hneg hpost hpost2]
    · intro htid t hval
      have hE : (!EmptyStr tid) = true := by simp [EmptyStr, htid]
      simp only [resolveCompositionRight, hE, hval, if_true] at hres
      split_ifs at hres
      · simp only [Prod.mk.injEq, Except.ok.injEq] at hres
        rw [← hres.1]
      · simp only [Prod.mk.injEq, Except.ok.injEq] at hres
        rw [← hres.1]
      · simp at hres
    · intro htid
      have hE : (!EmptyStr tid) = false := by simp [EmptyStr, htid]
      simp only [resolveCompositionRight, hE, Bool.false_eq_true, if_false] at hres
      split at hres
      · simp at hres
      · simp only [Prod.mk.injEq, Except.ok.injEq] at hres
        rw [← hres.1]
  ·
    intro r cs newId hres hnn hpost
    have hneg : ¬ subInt r.totalShares R < 0 := by omega
    obtain ⟨-, q2, -⟩ := resolveRecordingRight_quiet env api L rid tid cid _ cs hres
    have htr := recordingTransfers_of_resolved env api L rid tid cid recipientId R r cs rtx
      hres hget
    rw [if_neg hneg] at htr
    refine ⟨htr, ?_, ?_, ?_, ?_⟩
    · cases hpost2 : env.PostTx (L ++ [⟨newId, splitTx api r R rtx.sender, api.priv⟩])
          (Tx.defaultIndividualCreate (Record.recordingRightTransfer recipientId r.rightId cid api.partyId newId) api.pub) api.priv with
      | error e0 =>
        rw [recording_receipt_error env api L rid tid cid recipientId R r cs rtx newId e0
          hres hget hneg hpost hpost2]
        simp [Outcome.posts, q2, Call.posted]
      | ok id =>
        rw [recording_success env api L rid tid cid recipientId R r cs rtx newId id
          hres hget hneg hpost hpost2]
        simp [Outcome.posts, q2, Call.posted]
    · intro id hpost2
      rw [recording_success env api L rid tid cid recipientId R r cs rtx newId id
        hres hget hneg hpost hpost2]
    · intro htid t hval
      have hE : (!EmptyStr tid) = true := by simp [EmptyStr, htid]
      simp only [resolveRecordingRight, hE, hval, if_true] at hres
      split_ifs at hres
      · simp only [Prod.mk.injEq, Except.ok.injEq] at hres
        rw [← hres.1]
      · simp only [Prod.mk.injEq, Except.ok.injEq] at hres
        rw [← hres.1]
      · simp at hres
    · intro htid
      have hE : (!EmptyStr tid) = false := by simp [EmptyStr, htid]
      simp only [resolveRecordingRight, hE, Bool.false_eq_true, if_false] at hres
      split at hres
      · simp at hres
      · simp only [Prod.mk.injEq, Except.ok.injEq] at hres
        rw [← hres.1]

/-- C9 at a concrete input: bob, recipient of `transfer-1`, passes 10 of his 40 shares on to
carol.  The receipt names the right `right-1` of the prior transfer (not the right id bob
supplied) and the new transaction id `new-1` (not the consumed `tx-1`). -/
theorem transfer_posts_receipt_witness :
    (bob.TransferCompositionRight demoEnv [] "other" "transfer-1" "pub-1" "carol" 10).result =
      .ok ⟨"new-2", Record.compositionRightTransfer "right-1" "pub-1" "carol" "bob" "new-1"⟩ :=
  ((transfer_posts_receipt demoEnv bob [] "other" "transfer-1" "pub-1" "carol" 10
    ⟨⟨"carol"⟩, "carol"⟩ rfl).1 ⟨"right-1", "tx-1", 0, 40⟩
    [Call.validateRightTransfer "transfer-1"] "new-1" rfl (by decide) rfl).2.2.1 "new-2" rfl

/-- C10: when no prior transfer id is given, the resolution step calls the holder
validation with the session party id, the right id and the publication (or release) id.
If that fails, the operation fails with the same error after this one call: nothing is
built or submitted and the ledger is as before.  If it succeeds with a right record, the
resolved `totalShares` is the recorded recipient shares of the right, the right id and
the consumed `txId` are both the supplied right id, and the output index is 0. -/
theorem resolve_by_direct_reference (env : Env) (api : Api) (L : Ledger)
    (rid cid recipientId : String) (R : Int) :
    ((∀ e, env.ValidateCompositionRightHolder L rid cid api.partyId = .error e →
        (api.TransferCompositionRight env L rid "" cid recipientId R).result = .error e ∧
        (api.TransferCompositionRight env L rid "" cid recipientId R).calls = [Call.validateRightHolder rid cid api.partyId] ∧
        (api.TransferCompositionRight env L rid "" cid recipientId R).transfers = [] ∧
        (api.TransferCompositionRight env L rid "" cid recipientId R).posts = [] ∧
        (api.TransferCompositionRight env L rid "" cid recipientId R).ledger = L) ∧
      (∀ right, env.ValidateCompositionRightHolder L rid cid api.partyId = .ok right →
        resolveCompositionRight env api L rid "" cid =
          (.ok ⟨rid, rid, 0, right.recipientShares⟩, [Call.validateRightHolder rid cid api.partyId]))) ∧
    ((∀ e, env.ValidateRecordingRightHolder L api.partyId rid cid = .error e →
        (api.TransferRecordingRight env L rid "" recipientId R cid).result = .error e ∧
        (api.TransferRecordingRight env L rid "" recipientId R cid).calls = [Call.validateRightHolder api.partyId rid cid] ∧
        (api.TransferRecordingRight env L rid "" recipientId R cid).transfers = [] ∧
        (api.TransferRecordingRight env L rid "" recipientId R cid).posts = [] ∧
        (api.TransferRecordingRight env L rid "" recipientId R cid).ledger = L) ∧
      (∀ right, env.ValidateRecordingRightHolder L api.partyId rid cid = .ok right →
        resolveRecordingRight env api L rid "" cid =
          (.ok ⟨rid, rid, 0, right.recipientShares⟩, [Call.validateRightHolder api.partyId rid cid]))) := by
  have hE : (!EmptyStr "") = false := by decide
  constructor
  ·
    constructor
    · intro e hval
      have hres : resolveCompositionRight env api L rid "" cid =
          (.error e, [Call.validateRightHolder rid cid api.partyId]) := by
        simp only [resolveCompositionRight, hE, Bool.false_eq_true, if_false, hval]
      rw [composition_resolve_error env api L rid "" cid recipientId R e _ hres]
      simp [Outcome.transfers, Outcome.posts, Call.builtTransfer, Call.posted]
    · intro right hval
      simp only [resolveCompositionRight, hE, Bool.false_eq_true, if_false, hval]
  ·
    constructor
    · intro e hval
      have hres : resolveRecordingRight env api L rid "" cid =
          (.error e, [Call.validateRightHolder api.partyId rid cid]) := by
        simp only [resolveRecordingRight, hE, Bool.false_eq_true, if_false, hval]
      rw [recording_resolve_error env api L rid "" cid recipientId R e _ hres]
      simp [Outcome.transfers, Outcome.posts, Call.builtTransfer, Call.posted]
    · intro right hval
      simp only [resolveRecordingRight, hE, Bool.false_eq_true, if_false, hval]

/-- C10 at a concrete input: no holder validates, so the direct transfer of alice fails
with the error of the validation after that single call. -/
theorem resolve_by_direct_reference_witness :
    (alice.TransferCompositionRight noHolderEnv [] "right-1" "" "pub-1" "bob" 40).result =
        .error (Err.other "not a holder") ∧
      (alice.TransferCompositionRight noHolderEnv [] "right-1" "" "pub-1" "bob" 40).calls =
        [Call.validateRightHolder "right-1" "pub-1" alice.partyId] ∧
      (alice.TransferCompositionRight noHolderEnv [] "right-1" "" "pub-1" "bob" 40).transfers
        = [] ∧
      (alice.TransferCompositionRight noHolderEnv [] "right-1" "" "pub-1" "bob" 40).posts = [] ∧
      (alice.TransferCompositionRight noHolderEnv [] "right-1" "" "pub-1" "bob" 40).ledger = [] :=
  (resolve_by_direct_reference noHolderEnv alice [] "right-1" "pub-1" "bob" 40).1.1
    (Err.other "not a holder") rfl

/-- C11: `TransferRecordingRight` and `TransferCompositionRight` run the same algorithm.
For every session, ledger and input, when the two transfer validations answer alike, the
two holder validations answer alike on the same party, right and container ids, and the
ledger answers a recording-right receipt as it answers the composition-right receipt with
the same fields, the run of `TransferRecordingRight` is the run of
`TransferCompositionRight` with only the holder validation and the receipt constructor
exchanged: same calls in the same order, same new ledger entries, same result.  In
particular both fail with the same error after the same number of calls, or both build
the same transfer transaction (same shape, share list, consumed transaction id, output
index and keys), look up the same recipient, and return the same id with receipts
built from the same fields. -/
theorem transfer_operations_correspond (env : Env) (api : Api) (L : Ledger)
    (rid tid cid recipientId : String) (R : Int)
    (hT : env.ValidateRecordingRightTransfer L tid = env.ValidateCompositionRightTransfer L tid)
    (hH : env.ValidateRecordingRightHolder L api.partyId rid cid =
      env.ValidateCompositionRightHolder L rid cid api.partyId)
    (hP : ∀ (L2 : Ledger) (rec : Record),
      env.PostTx L2 (Tx.defaultIndividualCreate rec.toRecording api.pub) api.priv =
        env.PostTx L2 (Tx.defaultIndividualCreate rec api.pub) api.priv) :
    (api.TransferRecordingRight env L rid tid recipientId R cid).result =
        (api.TransferCompositionRight env L rid tid cid recipientId R).result.map
          TransferData.toRecording ∧
      (api.TransferRecordingRight env L rid tid recipientId R cid).calls =
        (api.TransferCompositionRight env L rid tid cid recipientId R).calls.map
          Call.toRecording ∧
      (∃ new, (api.TransferCompositionRight env L rid tid cid recipientId R).ledger = L ++ new ∧
        (api.TransferRecordingRight env L rid tid recipientId R cid).ledger =
          L ++ new.map Posted.toRecording) ∧
      (api.TransferRecordingRight env L rid tid recipientId R cid).transfers =
        (api.TransferCompositionRight env L rid tid cid recipientId R).transfers ∧
      (api.TransferRecordingRight env L rid tid recipientId R cid).lookups =
        (api.TransferCompositionRight env L rid tid cid recipientId R).lookups ∧
      (∀ e, (api.TransferCompositionRight env L rid tid cid recipientId R).result = .error e →
        (api.TransferRecordingRight env L rid tid recipientId R cid).result = .error e ∧
        (api.TransferRecordingRight env L rid tid recipientId R cid).calls.length =
          (api.TransferCompositionRight env L rid tid cid recipientId R).calls.length) ∧
      (∀ d, (api.TransferCompositionRight env L rid tid cid recipientId R).result = .ok d →
        ∃ d2, (api.TransferRecordingRight env L rid tid recipientId R cid).result = .ok d2 ∧
          d2.id = d.id ∧ d2.transfer.receiptFields = d.transfer.receiptFields) := by
  have core :
      (api.TransferRecordingRight env L rid tid recipientId R cid).result =
          (api.TransferCompositionRight env L rid tid cid recipientId R).result.map
            TransferData.toRecording ∧
        (api.TransferRecordingRight env L rid tid recipientId R cid).calls =
          (api.TransferCompositionRight env L rid tid cid recipientId R).calls.map
            Call.toRecording ∧
        (∃ new,
          (api.TransferCompositionRight env L rid tid cid recipientId R).ledger = L ++ new ∧
          (api.TransferRecordingRight env L rid tid recipientId R cid).ledger =
            L ++ new.map Posted.toRecording) := by
    have hrec := resolve_correspond env api L rid tid cid hT hH
    rcases hres : resolveCompositionRight env api L rid tid cid with ⟨x, cs⟩
    rw [hres] at hrec
    simp only at hrec
    cases x with
    | error e0 =>
      rw [composition_resolve_error env api L rid tid cid recipientId R e0 cs hres,
        recording_resolve_error env api L rid tid cid recipientId R e0 _ hrec]
      exact ⟨rfl, rfl, [], by simp, by simp⟩
    | ok r =>
      cases hget : env.GetTx L recipientId with
      | error e0 =>
        rw [composition_lookup_error env api L rid tid cid recipientId R r e0 cs hres hget,
          recording_lookup_error env api L rid tid cid recipientId R r e0 _ hrec hget]
        exact ⟨rfl, by simp [Call.toRecording], [], by simp, by simp⟩
      | ok rtx =>
        by_cases hneg : subInt r.totalShares R < 0
        · rw [composition_over env api L rid tid cid recipientId R r cs rtx hres hget hneg,
            recording_over env api L rid tid cid recipientId R r _ rtx hrec hget hneg]
          exact ⟨rfl, by simp [Call.toRecording], [], by simp, by simp⟩
        · cases hpost : env.PostTx L (splitTx api r R rtx.sender) api.priv with
          | error e0 =>
            rw [composition_post_error env api L rid tid cid recipientId R r cs rtx e0 hres
                hget hneg hpost,
              recording_post_error env api L rid tid cid recipientId R r _ rtx e0 hrec
                hget hneg hpost]
            exact ⟨rfl, by simp [Call.toRecording, splitTx_toRecording], [], by simp,
              by simp⟩
          | ok txId =>
            have hP2 := hP (L ++ [⟨txId, splitTx api r R rtx.sender, api.priv⟩])
              (Record.compositionRightTransfer r.rightId cid recipientId api.partyId txId)
            simp only [Record.toRecording] at hP2
            cases hpost2 : env.PostTx (L ++ [⟨txId, splitTx api r R rtx.sender, api.priv⟩])
                (Tx.defaultIndividualCreate
                  (Record.compositionRightTransfer r.rightId cid recipientId api.partyId txId)
                  api.pub) api.priv with
            | error e0 =>
              rw [hpost2] at hP2
              rw [composition_receipt_error env api L rid tid cid recipientId R r cs rtx txId
                  e0 hres hget hneg hpost hpost2,
                recording_receipt_error env api L rid tid cid recipientId R r _ rtx txId
                  e0 hrec hget hneg hpost hP2]
              refine ⟨rfl, ?_, [⟨txId, splitTx api r R rtx.sender, api.priv⟩], rfl, ?_⟩
              · simp only [List.map_append, List.map_cons, List.map_nil, Call.toRecording,
                  splitTx_toRecording]
                rfl
              · simp only [List.map_cons, List.map_nil, Posted.toRecording,
                  splitTx_toRecording]
            | ok id =>
              rw [hpost2] at hP2
              rw [composition_success env api L rid tid cid recipientId R r cs rtx txId
                  id hres hget hneg hpost hpost2,
                recording_success env api L rid tid cid recipientId R r _ rtx txId
                  id hrec hget hneg hpost hP2]
              refine ⟨rfl, ?_, [⟨txId, splitTx api r R rtx.sender, api.priv⟩,
                ⟨id, Tx.defaultIndividualCreate
                  (Record.compositionRightTransfer r.rightId cid recipientId api.partyId txId)
                  api.pub, api.priv⟩], by simp, ?_⟩
              · simp only [List.map_append, List.map_cons, List.map_nil, Call.toRecording,
                  splitTx_toRecording]
                rfl
              · simp only [List.map_cons, List.map_nil, Posted.toRecording,
                  splitTx_toRecording, List.append_assoc, List.cons_append, List.nil_append]
                rfl
  obtain ⟨hresult, hcalls, hledger⟩ := core
  refine ⟨hresult, hcalls, hledger, ?_, ?_, ?_, ?_⟩
  · unfold Outcome.transfers
    rw [hcalls, List.filterMap_map]
    congr 1
    funext c
    exact builtTransfer_toRecording c
  · unfold Outcome.lookups
    rw [hcalls, List.filterMap_map]
    congr 1
    funext c
    exact lookedUp_toRecording c
  · intro e he
    constructor
    · rw [hresult, he]
      rfl
    · rw [hcalls, List.length_map]
  · intro d hd
    refine ⟨d.toRecording, ?_, rfl, ?_⟩
    · rw [hresult, hd]
      rfl
    · exact receiptFields_toRecording d.transfer

/-- C11 at a concrete input: on a ledger that answers both kinds alike, alice sends 40 of
her 100 shares to bob; the recording-right run returns the same id as the
composition-right run, with a receipt built from the same fields. -/
theorem transfer_operations_correspond_witness :
    (alice.TransferRecordingRight demoEnv [] "right-1" "" "bob" 40 "container-1").result =
        (alice.TransferCompositionRight demoEnv [] "right-1" "" "container-1" "bob"
          40).result.map TransferData.toRecording ∧
      (alice.TransferRecordingRight demoEnv [] "right-1" "" "bob" 40 "container-1").transfers =
        (alice.TransferCompositionRight demoEnv [] "right-1" "" "container-1" "bob"
          40).transfers :=
  ⟨(transfer_operations_correspond demoEnv alice [] "right-1" "" "container-1" "bob" 40
      rfl rfl (fun _ _ => rfl)).1,
    (transfer_operations_correspond demoEnv alice [] "right-1" "" "container-1" "bob" 40
      rfl rfl (fun _ _ => rfl)).2.2.2.1⟩

/-- C12, as the code behaves: alice is logged in and posts a transfer request that names
neither a publication nor a release.  `TransferHandler` invokes no operation and leaves
the ledger alone, but it writes two things to the response, the bad-request error
"Expected publicationId or releaseId" and after it the nil `Data` as JSON, whereas
`LicenseHandler` on the same request writes the error alone. -/
theorem transfer_handler_missing_container_response :
    alice.TransferHandler demoCommon demoEnv [] noContainerRequest =
        some ⟨[Write.httpError (Message.literal "Expected publicationId or releaseId") 400,
          Write.writeJSON Body.nil], [], [], []⟩ ∧
      alice.LicenseHandler demoCommon demoEnv [] noContainerRequest =
        ⟨[Write.httpError (Message.literal "Expected publicationId or releaseId") 400],
          [], [], []⟩ ∧
      (alice.TransferHandler demoCommon demoEnv [] noContainerRequest).map Response.writes ≠
        some (alice.LicenseHandler demoCommon demoEnv [] noContainerRequest).writes := by
  have ht := transferHandler_without_container demoCommon demoEnv alice [] noContainerRequest
    (fun key =>
      if key = "recipientShares" then "10"
      else if key = "recipientId" then "bob"
      else if key = "rightId" then "right-1"
      else "")
    10 (by decide) rfl rfl (by decide) (by decide) (by decide)
  have hl := licenseHandler_without_container demoCommon demoEnv alice [] noContainerRequest
    (fun key =>
      if key = "recipientShares" then "10"
      else if key = "recipientId" then "bob"
      else if key = "rightId" then "right-1"
      else "")
    (by decide) rfl rfl (by decide) (by decide)
  refine ⟨ht, hl, ?_⟩
  rw [ht, hl]
  decide
